import Mathlib

/-!
# Obstacle avoidance example (`examples/avoid_obstacles/avoid_obstacles.cpp`)

A shallow embedding of the geometry helpers (`intersection`, `degreetoradian`,
`calc_halfcirclexy`), of the mission-item assembly in `main`, and of the
upload / arm / start / pause / resume / return-to-launch sequence of `main`.

Numbers.  A stored C `double` is modelled by `Option α` over an ordered field
`α`: `some v` is the exact value `v`, `none` is NaN.  The one quotient that may
have a zero divisor, the argument of `atan`, keeps its infinities apart from
NaN (`DivResult`).  The model has a single zero, which as a divisor stands for
the positive zero of IEEE arithmetic.  The functions of `<math.h>` are
parameters of the definitions; the theorems instantiate them with `Real.sqrt`,
`Real.arctan`, `Real.cos`, `Real.sin`.
-/

namespace AvoidObstacles

/-! ## Data -/

/-- The source's `struct geo { double x; double y; }`. -/
structure geo (α : Type) where
  x : Option α
  y : Option α
deriving DecidableEq, Repr

/-- The `#define` constants of the file, as one record, so that statements can
range over every obstacle and route. -/
structure Consts (α : Type) where
  PI : α
  START_X : α
  START_Y : α
  END_X : α
  END_Y : α
  DISTANCEFROMOBSTACLE : α
  OBSTACLE_X : α
  OBSTACLE_Y : α

/-- The values the source file defines. -/
def source_consts (α : Type) [DivisionRing α] : Consts α where
  PI := 3.14159265358979323846
  START_X := 47.398170327054473
  START_Y := 8.5456490218639658
  END_X := 47.396928
  END_Y := 8.541570
  DISTANCEFROMOBSTACLE := 0.0002
  OBSTACLE_X := 47.397553
  OBSTACLE_Y := 8.543696

/-- The constants of scenario A of the specification: obstacle centre `(0,0)`,
radius `1`, route from `(-10,0)` to `(10,0)`; `PI` as in the source. -/
def scenario_A (α : Type) [DivisionRing α] : Consts α where
  PI := 3.14159265358979323846
  START_X := -10
  START_Y := 0
  END_X := 10
  END_Y := 0
  DISTANCEFROMOBSTACLE := 1
  OBSTACLE_X := 0
  OBSTACLE_Y := 0

/-- The constants of scenario B of the specification: obstacle centre
`(100,100)`, radius `1`, route from `(-10,0)` to `(10,0)`; `PI` as in the
source. -/
def scenario_B (α : Type) [DivisionRing α] : Consts α where
  PI := 3.14159265358979323846
  START_X := -10
  START_Y := 0
  END_X := 10
  END_Y := 0
  DISTANCEFROMOBSTACLE := 1
  OBSTACLE_X := 100
  OBSTACLE_Y := 100

/-! ## `<math.h>` on exact values -/

section Geometry

variable {α : Type} [LinearOrderedField α]

/-- C `sqrt` on an exact value: a negative argument has no real square root
(the library reports NaN). -/
def c_sqrt (sqrt : α → α) (v : α) : Option α :=
  if 0 ≤ v then some (sqrt v) else none

/-- The value of a C quotient of two exact values: a real number, or what IEEE
division reports for a zero divisor. -/
inductive DivResult (α : Type) where
  | real (q : α)
  | pos_inf
  | neg_inf
  | nan

/-- C `u / v` on exact values.  Over a zero divisor (the positive zero of
IEEE arithmetic) a positive `u` gives `+inf`, a negative `u` gives `-inf`, and
`0 / 0` is NaN. -/
def c_quot (u v : α) : DivResult α :=
  if v = 0 then
    if 0 < u then DivResult.pos_inf
    else if u < 0 then DivResult.neg_inf
    else DivResult.nan
  else DivResult.real (u / v)

/-- C `atan` on a quotient.  At `+inf` and `-inf` the library returns the
limits `pi/2` and `-pi/2`; over exact values `pi/2` is `2 * atan(1)`.  The arc
tangent of NaN is NaN. -/
def c_atan (atan : α → α) : DivResult α → Option α
  | DivResult.real q => some (atan q)
  | DivResult.pos_inf => some (2 * atan 1)
  | DivResult.neg_inf => some (-(2 * atan 1))
  | DivResult.nan => none

/-- The value handed to `sqrt` by `intersection`: `D` when `c != a`, and
`r*r - (a-x)*(a-x)` on the vertical branch. -/
def sqrt_arg (x y r a b c d : α) : α :=
  if c ≠ a then
    let m := (d - b) / (c - a)
    let n := (b * c - a * d) / (c - a)
    let A := m * m + 1
    let B1 := m * n - m * y - x
    let C := x * x + y * y - r * r + n * n - 2 * n * y
    B1 * B1 - A * C
  else
    r * r - (a - x) * (a - x)

/-- The source's `intersection(x, y, r, a, b, c, d, xy)`: the function returns
`void`; the result is the pair `(xy[0], xy[1])` it writes. -/
def intersection (sqrt : α → α) (x y r a b c d : α) : geo α × geo α :=
  if c ≠ a then
    let m := (d - b) / (c - a)
    let n := (b * c - a * d) / (c - a)
    let A := m * m + 1
    let B1 := m * n - m * y - x
    let C := x * x + y * y - r * r + n * n - 2 * n * y
    let D := B1 * B1 - A * C
    let X0 := (c_sqrt sqrt D).map (fun s => -(B1 + s) / A)
    let Y0 := X0.map (fun X => m * X + n)
    let X1 := (c_sqrt sqrt D).map (fun s => -(B1 - s) / A)
    let Y1 := X1.map (fun X => m * X + n)
    (⟨X0, Y0⟩, ⟨X1, Y1⟩)
  else
    let X := a
    let Y0 := (c_sqrt sqrt (r * r - (a - x) * (a - x))).map (fun s => y + s)
    let Y1 := (c_sqrt sqrt (r * r - (a - x) * (a - x))).map (fun s => y - s)
    (⟨some X, Y0⟩, ⟨some X, Y1⟩)

/-- The source's `degreetoradian(int degree)`. -/
def degreetoradian (PI : α) (degree : Int) : α :=
  (PI / 180) * (degree : α)

end Geometry

/-! ## The avoidance arc -/

section Arc

variable {α : Type} [LinearOrderedField α]

/-- C conversion of a `double` to `int`, as in `int angle = start_angle`:
the fractional part is discarded (truncation toward zero). -/
def c_trunc [FloorRing α] (s : α) : Int :=
  if 0 ≤ s then Int.floor s else Int.ceil s

/-- The source's `atan((xy[1].y)/(xy[1].x)) * 180 / PI`, for the point `p`
that `xy[1]` holds.  A NaN coordinate makes the result NaN.  (`PI` is a
non-zero literal in the source; the test on it only keeps a record with
`PI = 0` from being given a start angle.) -/
def start_angle (atan : α → α) (PI : α) (p : geo α) : Option α :=
  match p.y, p.x with
  | some py, some px =>
    if PI = 0 then none
    else (c_atan atan (c_quot py px)).map (fun at_q => at_q * 180 / PI)
  | _, _ => none

/-- The `for` loop of `calc_halfcirclexy`, entered with loop variables `i` and
`angle`; `s` is `start_angle` and `mem` the memory `halfcirclexy` points to,
indexed by offset.  Returns the final `i` and the memory.  (`angle` is a C
`int`; with `s` an arc tangent in degrees it stays far below the `int` range.) -/
def halfcircle_loop [FloorRing α] (cos sin : α → α) (k : Consts α) (s : α)
    (i : Nat) (angle : Int) (mem : Nat → geo α) : Nat × (Nat → geo α) :=
  if (angle : α) ≤ s + 180 then
    let radian := degreetoradian k.PI (angle - 90)
    let target_x := k.OBSTACLE_X + k.DISTANCEFROMOBSTACLE * cos radian
    let target_y := k.OBSTACLE_Y - k.DISTANCEFROMOBSTACLE * sin radian
    halfcircle_loop cos sin k s (i + 1) (angle + 10)
      (Function.update mem i ⟨some target_x, some target_y⟩)
  else
    (i, mem)
termination_by (Int.floor (s + 180) + 1 - angle).toNat
decreasing_by
  have h : angle ≤ Int.floor (s + 180) := Int.le_floor.mpr (by assumption)
  omega

/-- The source's `calc_halfcirclexy(halfcirclexy, xy)`.  Only `xy[1]` is read.
When `start_angle` is NaN the loop condition (a comparison with NaN) is false
at once and nothing is written.  The first component is the number of entries
written. -/
def calc_halfcirclexy [FloorRing α] (atan cos sin : α → α) (k : Consts α)
    (halfcirclexy : Nat → geo α) (xy : geo α × geo α) : Nat × (Nat → geo α) :=
  match start_angle atan k.PI xy.2 with
  | some s => halfcircle_loop cos sin k s 0 (c_trunc s) halfcirclexy
  | none => (0, halfcirclexy)

/-- The points `calc_halfcirclexy` produces, in the order generated: the
entries `0 .. n-1` it wrote. -/
def arc_points [FloorRing α] (atan cos sin : α → α) (k : Consts α)
    (halfcirclexy : Nat → geo α) (xy : geo α × geo α) : List (geo α) :=
  let out := calc_halfcirclexy atan cos sin k halfcirclexy xy
  (List.range out.1).map out.2

end Arc

/-! ## Mission items -/

/-- Modelled from the spec: `Mission::MissionItem::CameraAction` is declared in
the MAVSDK mission plugin header, which is not among the sources; the
enumerators are those the data model lists. -/
inductive CameraAction where
  | None
  | TakePhoto
  | StartVideo
  | StopVideo
  | StartPhotoInterval
  | StopPhotoInterval
deriving DecidableEq, Repr

/-- The fields of `Mission::MissionItem` that `make_mission_item` sets.  The
`float` fields only ever hold the literals of `main`, kept as rationals. -/
structure MissionItem (α : Type) where
  latitude_deg : Option α
  longitude_deg : Option α
  relative_altitude_m : ℚ
  speed_m_s : ℚ
  is_fly_through : Bool
  gimbal_pitch_deg : ℚ
  gimbal_yaw_deg : ℚ
  camera_action : CameraAction

/-- The source's `make_mission_item`. -/
def make_mission_item {α : Type} (latitude_deg longitude_deg : Option α)
    (relative_altitude_m speed_m_s : ℚ) (is_fly_through : Bool)
    (gimbal_pitch_deg gimbal_yaw_deg : ℚ) (camera_action : CameraAction) :
    MissionItem α where
  latitude_deg := latitude_deg
  longitude_deg := longitude_deg
  relative_altitude_m := relative_altitude_m
  speed_m_s := speed_m_s
  is_fly_through := is_fly_through
  gimbal_pitch_deg := gimbal_pitch_deg
  gimbal_yaw_deg := gimbal_yaw_deg
  camera_action := camera_action

/-- The position of a waypoint, as a `geo` (`x` the latitude argument, `y` the
longitude argument, the way `main` passes them). -/
def MissionItem.position {α : Type} (w : MissionItem α) : geo α :=
  ⟨w.latitude_deg, w.longitude_deg⟩

section Plan

variable {α : Type} [LinearOrderedField α] [FloorRing α]

/-- The assembly of `mission_items` in `main` (source lines 198-254).
`avoidxy0` is the content of the local array `avoidxy` before
`calc_halfcirclexy` runs (the array is not initialised by `main`). -/
def main_mission_items (sqrt atan cos sin : α → α) (k : Consts α)
    (avoidxy0 : Nat → geo α) : List (MissionItem α) :=
  let mission_items : List (MissionItem α) :=
    [make_mission_item (some k.START_X) (some k.START_Y) 10 500 false 20 60 CameraAction.None]
  let xy := intersection sqrt k.OBSTACLE_X k.OBSTACLE_Y k.DISTANCEFROMOBSTACLE
    k.START_X k.START_Y k.END_X k.END_Y
  let avoidxy := (calc_halfcirclexy atan cos sin k avoidxy0 xy).2
  let mission_items := mission_items ++ (List.range 18).map (fun i =>
    make_mission_item (avoidxy i).x (avoidxy i).y 10 500 false 20 60 CameraAction.None)
  let mission_items := mission_items ++
    [make_mission_item xy.1.x xy.1.y 10 500 false 20 60 CameraAction.None]
  mission_items ++
    [make_mission_item (some k.END_X) (some k.END_Y) 10 500 false 0 (-60) CameraAction.None]

end Plan

/-! ## The flight sequence of `main` -/

/-- Modelled from the spec: `Mission::Result` is declared in the MAVSDK mission
plugin header, which is not among the sources.  The code only names `Success`;
every other enumerator is a non-success outcome, kept by its number. -/
inductive MissionResult where
  | Success
  | Failure (code : Nat)
deriving DecidableEq, Repr

/-- Modelled from the spec: `Action::Result` is declared in the MAVSDK action
plugin header, which is not among the sources.  The code only names `Success`;
every other enumerator is a non-success outcome, kept by its number. -/
inductive ActionResult where
  | Success
  | Failure (code : Nat)
deriving DecidableEq, Repr

/-- Modelled from the spec: `Mission::MissionProgress`, declared in the MAVSDK
mission plugin header; the callback reads `current` and `total`. -/
structure MissionProgress where
  current : Int
  total : Int
deriving DecidableEq, Repr

/-- The requests `main` makes to the plugins, with `P` the type of the mission
plan.  Resuming is a second `start_mission_async`, as in the source. -/
inductive Cmd (P : Type) where
  | upload_mission (plan : P)
  | arm
  | subscribe_mission_progress
  | start_mission
  | pause_mission
  | return_to_launch
deriving DecidableEq, Repr

/-- The lines `main` prints about the outcome of a request. -/
inductive Msg where
  | mission_upload_failed (r : MissionResult)
  | mission_uploaded
  | arm_failed (r : ActionResult)
  | armed
  | mission_start_failed (r : MissionResult)
  | failed_to_pause (r : MissionResult)
  | mission_paused
  | failed_to_resume (r : MissionResult)
  | resumed_mission
  | failed_to_command_rtl (r : ActionResult)
  | commanded_rtl
  | disarmed_exiting
deriving DecidableEq, Repr

/-- The polling loops of `main`, each of which may wait for ever. -/
inductive WaitPoint where
  | health_all_ok
  | want_to_pause
  | is_mission_finished
  | disarmed
deriving DecidableEq, Repr

/-- How a run of `main` stands at the end of the scripted provider behaviour:
the process has exited with a status, or it is still in a polling loop. -/
inductive Outcome where
  | exited (status : Nat)
  | waiting (at_loop : WaitPoint)
deriving DecidableEq, Repr

/-- The value of `EXIT_FAILURE` used by `exit(EXIT_FAILURE)`. -/
def EXIT_FAILURE : Nat := 1

/-- What the vehicle side does during one run: the answer to each request and
to each poll, in the order `main` makes them.  `mission_progress` lists the
progress events in delivery order, grouped by the check of `want_to_pause`
they precede (events go on being delivered after the flag has been seen). -/
structure Provider where
  health_all_ok : List Bool
  upload_mission : MissionResult
  arm : ActionResult
  start_mission : MissionResult
  mission_progress : List (List MissionProgress)
  pause_mission : MissionResult
  resume_mission : MissionResult
  is_mission_finished : List Bool
  return_to_launch : ActionResult
  armed : List Bool

/-- A run of `main`: the requests issued, the outcome lines printed, the value
of the flag `want_to_pause` once every scripted progress event that is
delivered has been (only the callback writes the flag), and the outcome. -/
structure Run (P : Type) where
  commands : List (Cmd P)
  console : List Msg
  want_to_pause : Bool
  outcome : Outcome

/-- The body of the progress callback on the flag: `if (mission_progress.current
>= 2) want_to_pause = true;`. -/
def on_mission_progress (want_to_pause : Bool) (mission_progress : MissionProgress) : Bool :=
  if mission_progress.current ≥ 2 then true else want_to_pause

/-- The flag after the callback has run on each event of a list, in order. -/
def deliver (want_to_pause : Bool) (events : List MissionProgress) : Bool :=
  events.foldl on_mission_progress want_to_pause

/-- A loop `while (cond()) sleep_for(...)` against the scripted answers: it is
left at the first answer different from `stay`; `false` when the answers run out
first. -/
def poll_exits (stay : Bool) : List Bool → Bool
  | [] => false
  | b :: rest => if b = stay then poll_exits stay rest else true

/-- The loop `while (!want_to_pause) sleep_for(seconds(1))`: each group of events
is delivered, then the flag is checked.  Returns the groups still to come when
the loop is left, `none` when the groups run out with the flag down. -/
def wait_want_to_pause (want_to_pause : Bool) :
    List (List MissionProgress) → Option (List (List MissionProgress))
  | [] => if want_to_pause then some [] else none
  | events :: rest =>
    if want_to_pause then some (events :: rest)
    else wait_want_to_pause (deliver want_to_pause events) rest

/-- The part of `main` from the health loop to the end (source lines 190-367),
for the mission items `plan` assembled in between. -/
def main_flight {P : Type} (plan : P) (p : Provider) : Run P :=
  if poll_exits false p.health_all_ok = false then
    ⟨[], [], false, Outcome.waiting WaitPoint.health_all_ok⟩
  else
  let commands := [Cmd.upload_mission plan]
  if p.upload_mission ≠ MissionResult.Success then
    ⟨commands, [Msg.mission_upload_failed p.upload_mission], false, Outcome.exited 1⟩
  else
  let console := [Msg.mission_uploaded]
  let commands := commands ++ [Cmd.arm]
  if p.arm ≠ ActionResult.Success then
    ⟨commands, console ++ [Msg.arm_failed p.arm], false, Outcome.exited EXIT_FAILURE⟩
  else
  let console := console ++ [Msg.armed]
  let commands := commands ++ [Cmd.subscribe_mission_progress]
  let commands := commands ++ [Cmd.start_mission]
  if p.start_mission ≠ MissionResult.Success then
    ⟨commands, console ++ [Msg.mission_start_failed p.start_mission], false,
      Outcome.exited EXIT_FAILURE⟩
  else
  match wait_want_to_pause false p.mission_progress with
  | none =>
    ⟨commands, console, deliver false p.mission_progress.flatten,
      Outcome.waiting WaitPoint.want_to_pause⟩
  | some _ =>
  let want_to_pause := deliver false p.mission_progress.flatten
  let commands := commands ++ [Cmd.pause_mission]
  let console := console ++
    [if p.pause_mission ≠ MissionResult.Success then Msg.failed_to_pause p.pause_mission
     else Msg.mission_paused]
  let commands := commands ++ [Cmd.start_mission]
  let console := console ++
    [if p.resume_mission ≠ MissionResult.Success then Msg.failed_to_resume p.resume_mission
     else Msg.resumed_mission]
  if poll_exits false p.is_mission_finished = false then
    ⟨commands, console, want_to_pause, Outcome.waiting WaitPoint.is_mission_finished⟩
  else
  let commands := commands ++ [Cmd.return_to_launch]
  let console := console ++
    [if p.return_to_launch ≠ ActionResult.Success then
       Msg.failed_to_command_rtl p.return_to_launch
     else Msg.commanded_rtl]
  if poll_exits true p.armed = false then
    ⟨commands, console, want_to_pause, Outcome.waiting WaitPoint.disarmed⟩
  else
    ⟨commands, console ++ [Msg.disarmed_exiting], want_to_pause, Outcome.exited 0⟩

/-- Whether a request is the pause request. -/
def Cmd.is_pause_mission {P : Type} : Cmd P → Bool
  | Cmd.pause_mission => true
  | _ => false

/-- A provider on which everything succeeds at once, delivering the progress
events `(1,10)`, `(2,10)`, `(3,10)` of scenario D one per check of the flag. -/
def scenario_D : Provider where
  health_all_ok := [true]
  upload_mission := MissionResult.Success
  arm := ActionResult.Success
  start_mission := MissionResult.Success
  mission_progress := [[⟨1, 10⟩], [⟨2, 10⟩], [⟨3, 10⟩]]
  pause_mission := MissionResult.Success
  resume_mission := MissionResult.Success
  is_mission_finished := [false, true]
  return_to_launch := ActionResult.Success
  armed := [true, false]

/-! ## The specification's formula for an arc sample -/

/-- The specification's sample point for the whole-degree angle `theta`:
`center + bufferRadius * (cos(theta - 90 deg), -sin(theta - 90 deg))`, degrees
turned into radians with the source's `PI`. -/
def arc_point {α : Type} [Field α] (cos sin : α → α) (k : Consts α) (theta : Int) : geo α :=
  ⟨some (k.OBSTACLE_X + k.DISTANCEFROMOBSTACLE * cos (k.PI / 180 * ((theta - 90 : Int) : α))),
   some (k.OBSTACLE_Y + k.DISTANCEFROMOBSTACLE * -sin (k.PI / 180 * ((theta - 90 : Int) : α)))⟩

/-! ## The specification's entry and exit intersection points -/

/-- The result shape the specification gives `intersectCircleLine`: either
`NoIntersection` or the two points. -/
inductive IntersectResult (α : Type) where
  | NoIntersection
  | Points (p q : geo α)

/-- What a caller of `intersection` receives, in that shape.  The source
function returns `void` and has no status of any kind: whatever the value under
the square root, the caller is left with the two entries written to `xy`. -/
def intersectCircleLine {α : Type} [LinearOrderedField α] (sqrt : α → α)
    (x y r a b c d : α) : IntersectResult α :=
  let xy := intersection sqrt x y r a b c d
  IntersectResult.Points xy.1 xy.2

/-! ## Circle and line -/

section GeometryFacts

/-- On a non-vertical line the value under the square root is the
discriminant: scaled by `(c-a)^2` it compares `r` with the distance from the
centre to the line. -/
theorem sqrt_arg_of_ne (x y r a b c d : ℝ) (h : c ≠ a) :
    sqrt_arg x y r a b c d * (c - a) ^ 2 =
      r ^ 2 * ((c - a) ^ 2 + (d - b) ^ 2) - ((d - b) * (x - a) - (c - a) * (y - b)) ^ 2 := by
  have hca : c - a ≠ 0 := sub_ne_zero.mpr h
  simp only [sqrt_arg, if_pos h]
  field_simp
  ring

/-- On a vertical line through two distinct points. -/
theorem sqrt_arg_of_eq (x y r a b c d : ℝ) (h : c = a) :
    sqrt_arg x y r a b c d * (d - b) ^ 2 =
      r ^ 2 * ((c - a) ^ 2 + (d - b) ^ 2) - ((d - b) * (x - a) - (c - a) * (y - b)) ^ 2 := by
  simp only [sqrt_arg, h, ne_eq, not_true_eq_false, if_false]
  ring

/-- For two distinct route points the sign of the value under the square root
is decided by the distance from the centre to the line: non-negative exactly
when that distance is at most `r`. -/
theorem sqrt_arg_nonneg_iff (x y r a b c d : ℝ) (hne : (a, b) ≠ (c, d)) :
    0 ≤ sqrt_arg x y r a b c d ↔
      ((d - b) * (x - a) - (c - a) * (y - b)) ^ 2 ≤ r ^ 2 * ((c - a) ^ 2 + (d - b) ^ 2) := by
  by_cases h : c = a
  · have hdb : d ≠ b := by
      intro hd
      exact hne (by rw [h, hd])
    have hpos : 0 < (d - b) ^ 2 := by
      have : d - b ≠ 0 := sub_ne_zero.mpr hdb
      positivity
    have key := sqrt_arg_of_eq x y r a b c d h
    constructor
    · intro h0
      have : 0 ≤ sqrt_arg x y r a b c d * (d - b) ^ 2 := mul_nonneg h0 hpos.le
      linarith
    · intro h1
      have : 0 ≤ sqrt_arg x y r a b c d * (d - b) ^ 2 := by linarith
      exact nonneg_of_mul_nonneg_left this hpos
  · have hpos : 0 < (c - a) ^ 2 := by
      have : c - a ≠ 0 := sub_ne_zero.mpr h
      positivity
    have key := sqrt_arg_of_ne x y r a b c d h
    constructor
    · intro h0
      have : 0 ≤ sqrt_arg x y r a b c d * (c - a) ^ 2 := mul_nonneg h0 hpos.le
      linarith
    · intro h1
      have : 0 ≤ sqrt_arg x y r a b c d * (c - a) ^ 2 := by linarith
      exact nonneg_of_mul_nonneg_left this hpos

/-- With a non-negative value under the square root, `intersection` writes two
real points, both on the line through the route points and on the circle. -/
theorem intersection_of_sqrt_arg_nonneg (x y r a b c d : ℝ)
    (hD : 0 ≤ sqrt_arg x y r a b c d) :
    ∃ p0x p0y p1x p1y : ℝ,
      intersection Real.sqrt x y r a b c d = (⟨some p0x, some p0y⟩, ⟨some p1x, some p1y⟩) ∧
      (p0x - a) * (d - b) = (p0y - b) * (c - a) ∧
      (p1x - a) * (d - b) = (p1y - b) * (c - a) ∧
      (p0x - x) ^ 2 + (p0y - y) ^ 2 = r ^ 2 ∧
      (p1x - x) ^ 2 + (p1y - y) ^ 2 = r ^ 2 := by
  by_cases h : c = a
  · subst h
    simp only [sqrt_arg, ne_eq, not_true_eq_false, if_false] at hD
    have hs := Real.mul_self_sqrt hD
    refine ⟨c, y + Real.sqrt (r * r - (c - x) * (c - x)), c,
      y - Real.sqrt (r * r - (c - x) * (c - x)), ?_, ?_, ?_, ?_, ?_⟩
    · simp [intersection, c_sqrt, hD]
    · ring
    · ring
    · linear_combination hs
    · linear_combination hs
  · have hca : c - a ≠ 0 := sub_ne_zero.mpr h
    simp only [sqrt_arg, ne_eq, h, not_false_eq_true, if_true] at hD
    have hs := Real.mul_self_sqrt hD
    set m := (d - b) / (c - a) with hm
    set n := (b * c - a * d) / (c - a) with hn
    have hA : m * m + 1 ≠ 0 := by nlinarith [mul_self_nonneg m]
    have hmc : m * (c - a) = d - b := by rw [hm]; field_simp
    have hnc : n * (c - a) = b * c - a * d := by rw [hn]; field_simp
    set s := Real.sqrt ((m * n - m * y - x) * (m * n - m * y - x) -
      (m * m + 1) * (x * x + y * y - r * r + n * n - 2 * n * y)) with hsdef
    refine ⟨-(m * n - m * y - x + s) / (m * m + 1),
      m * (-(m * n - m * y - x + s) / (m * m + 1)) + n,
      -(m * n - m * y - x - s) / (m * m + 1),
      m * (-(m * n - m * y - x - s) / (m * m + 1)) + n, ?_, ?_, ?_, ?_, ?_⟩
    · simp only [intersection, c_sqrt, ne_eq, h, not_false_eq_true, if_true, hD,
        Option.map_some', ← hm, ← hn, ← hsdef]
    · linear_combination (-(-(m * n - m * y - x + s) / (m * m + 1))) * hmc - hnc
    · linear_combination (-(-(m * n - m * y - x - s) / (m * m + 1))) * hmc - hnc
    · field_simp
      linear_combination (m * m + 1) * hs
    · field_simp
      linear_combination (m * m + 1) * hs

/-- With a negative value under the square root, every coordinate computed
from the root has no real value. -/
theorem intersection_of_sqrt_arg_neg (x y r a b c d : ℝ)
    (hD : sqrt_arg x y r a b c d < 0) :
    intersection Real.sqrt x y r a b c d =
      if c ≠ a then (⟨none, none⟩, ⟨none, none⟩) else (⟨some a, none⟩, ⟨some a, none⟩) := by
  by_cases h : c = a
  · subst h
    simp only [sqrt_arg, ne_eq, not_true_eq_false, if_false] at hD
    simp [intersection, c_sqrt, not_le.mpr hD]
  · simp only [sqrt_arg, ne_eq, h, not_false_eq_true, if_true] at hD
    simp only [intersection, c_sqrt, ne_eq, h, not_false_eq_true, if_true, not_le.mpr hD,
      if_false, Option.map_none']

end GeometryFacts

/-! ## The loop of `calc_halfcirclexy` -/

section LoopFacts

variable {α : Type} [LinearOrderedField α] [FloorRing α]

/-- What the loop does from any state: it writes the entries `i, i+1, ...`, one
for each angle `angle + 10 j` not above `s + 180`, each holding the
specification's sample for that angle, and leaves every other entry alone. -/
theorem halfcircle_loop_spec (cos sin : α → α) (k : Consts α) (s : α) :
    ∀ (fuel : ℕ) (i : ℕ) (angle : ℤ) (mem : ℕ → geo α),
      (Int.floor (s + 180) + 1 - angle).toNat ≤ fuel →
      i ≤ (halfcircle_loop cos sin k s i angle mem).1 ∧
      (∀ j : ℕ, i + j < (halfcircle_loop cos sin k s i angle mem).1 ↔
        angle + 10 * (j : ℤ) ≤ Int.floor (s + 180)) ∧
      (∀ j : ℕ, i + j < (halfcircle_loop cos sin k s i angle mem).1 →
        (halfcircle_loop cos sin k s i angle mem).2 (i + j) =
          arc_point cos sin k (angle + 10 * (j : ℤ))) ∧
      (∀ j : ℕ, j < i → (halfcircle_loop cos sin k s i angle mem).2 j = mem j) ∧
      (∀ j : ℕ, (halfcircle_loop cos sin k s i angle mem).1 ≤ j →
        (halfcircle_loop cos sin k s i angle mem).2 j = mem j) := by
  intro fuel
  induction fuel with
  | zero =>
    intro i angle mem hfuel
    have hgt : ¬ ((angle : α) ≤ s + 180) := by
      intro hle
      have := Int.le_floor.mpr hle
      omega
    have hfl : Int.floor (s + 180) < angle := by omega
    rw [halfcircle_loop, if_neg hgt]
    refine ⟨le_refl _, ?_, ?_, ?_, ?_⟩
    · intro j
      constructor
      · intro h; simp at h
      · intro h; omega
    · intro j h; simp at h
    · intro j _; rfl
    · intro j _; rfl
  | succ fuel ih =>
    intro i angle mem hfuel
    by_cases hle : (angle : α) ≤ s + 180
    · have hfl : angle ≤ Int.floor (s + 180) := Int.le_floor.mpr hle
      rw [halfcircle_loop, if_pos hle]
      simp only []
      obtain ⟨h1, h2, h3, h4, h5⟩ := ih (i + 1) (angle + 10)
        (Function.update mem i
          ⟨some (k.OBSTACLE_X + k.DISTANCEFROMOBSTACLE * cos (degreetoradian k.PI (angle - 90))),
           some (k.OBSTACLE_Y - k.DISTANCEFROMOBSTACLE * sin (degreetoradian k.PI (angle - 90)))⟩)
        (by omega)
      refine ⟨by omega, ?_, ?_, ?_, ?_⟩
      · intro j
        cases j with
        | zero =>
          constructor
          · intro _; simpa using hfl
          · intro _; simpa using h1
        | succ j =>
          have := h2 j
          constructor
          · intro h
            have h' := this.mp (by omega)
            push_cast
            omega
          · intro h
            push_cast at h
            have h' := this.mpr (by omega)
            omega
      · intro j hj
        cases j with
        | zero =>
          have e : i + 0 = i := rfl
          rw [e, h4 i (by omega), Function.update_same]
          simp [arc_point, degreetoradian, sub_eq_add_neg]
        | succ j =>
          have := h3 j (by omega)
          rw [show i + (j + 1) = i + 1 + j by omega, this]
          congr 1
          push_cast
          ring
      · intro j hj
        rw [h4 j (by omega), Function.update_noteq (by omega)]
      · intro j hj
        rw [h5 j hj, Function.update_noteq (by omega)]
    · have hfl : Int.floor (s + 180) < angle := by
        by_contra hcon
        exact hle (Int.le_floor.mp (not_lt.mp hcon))
      rw [halfcircle_loop, if_neg hle]
      refine ⟨le_refl _, ?_, ?_, ?_, ?_⟩
      · intro j
        constructor
        · intro h; simp at h
        · intro h; omega
      · intro j h; simp at h
      · intro j _; rfl
      · intro j _; rfl

/-- Truncation toward zero lies between the floor and the floor plus one. -/
theorem c_trunc_bounds (s : α) : Int.floor s ≤ c_trunc s ∧ c_trunc s ≤ Int.floor s + 1 := by
  unfold c_trunc
  split
  · exact ⟨le_refl _, by omega⟩
  · exact ⟨Int.floor_le_ceil s, Int.ceil_le_floor_add_one s⟩

/-- The floor of `s + 180` is the floor of `s` plus 180. -/
theorem floor_add_180 (s : α) : Int.floor (s + 180) = Int.floor s + 180 := by
  have h : (s + 180 : α) = s + ((180 : ℤ) : α) := by push_cast; rfl
  rw [h, Int.floor_add_int]

/-- What `calc_halfcirclexy` does when the start angle `s` is a real number:
entry `j` is written exactly when `trunc s + 10 j` is not above `s + 180`, it
then holds the sample for that whole-degree angle, and all other entries keep
their content. -/
theorem calc_halfcirclexy_spec (atan cos sin : α → α) (k : Consts α)
    (mem : ℕ → geo α) (xy : geo α × geo α) (s : α)
    (hs : start_angle atan k.PI xy.2 = some s) :
    (∀ j : ℕ, j < (calc_halfcirclexy atan cos sin k mem xy).1 ↔
      c_trunc s + 10 * (j : ℤ) ≤ Int.floor s + 180) ∧
    (∀ j : ℕ, j < (calc_halfcirclexy atan cos sin k mem xy).1 →
      (calc_halfcirclexy atan cos sin k mem xy).2 j =
        arc_point cos sin k (c_trunc s + 10 * (j : ℤ))) ∧
    (∀ j : ℕ, (calc_halfcirclexy atan cos sin k mem xy).1 ≤ j →
      (calc_halfcirclexy atan cos sin k mem xy).2 j = mem j) := by
  have h := halfcircle_loop_spec cos sin k s _ 0 (c_trunc s) mem (le_refl _)
  obtain ⟨_, h2, h3, _, h5⟩ := h
  have e : calc_halfcirclexy atan cos sin k mem xy =
      halfcircle_loop cos sin k s 0 (c_trunc s) mem := by
    simp only [calc_halfcirclexy, hs]
  rw [e]
  refine ⟨?_, ?_, h5⟩
  · intro j
    have := h2 j
    rw [Nat.zero_add, floor_add_180] at this
    exact this
  · intro j hj
    have := h3 j (by rwa [Nat.zero_add])
    rwa [Nat.zero_add] at this

/-- The number of entries written: 19 when the truncated start angle is not
above the start angle, 18 otherwise. -/
theorem calc_halfcirclexy_count (atan cos sin : α → α) (k : Consts α)
    (mem : ℕ → geo α) (xy : geo α × geo α) (s : α)
    (hs : start_angle atan k.PI xy.2 = some s) :
    (calc_halfcirclexy atan cos sin k mem xy).1 =
      if ((c_trunc s : ℤ) : α) ≤ s then 19 else 18 := by
  obtain ⟨h1, _, _⟩ := calc_halfcirclexy_spec atan cos sin k mem xy s hs
  obtain ⟨hb1, hb2⟩ := c_trunc_bounds s
  have a17 := h1 17
  have a18 := h1 18
  have a19 := h1 19
  push_cast at a17 a18 a19
  by_cases hle : ((c_trunc s : ℤ) : α) ≤ s
  · have : c_trunc s ≤ Int.floor s := Int.le_floor.mpr hle
    rw [if_pos hle]
    have x18 := a18.mpr (by omega)
    have x19 : ¬ (19 < (calc_halfcirclexy atan cos sin k mem xy).1) := fun h => by
      have := a19.mp h
      omega
    omega
  · have : ¬ (c_trunc s ≤ Int.floor s) := fun h => hle (Int.le_floor.mp h)
    rw [if_neg hle]
    have x17 := a17.mpr (by omega)
    have x18 : ¬ (18 < (calc_halfcirclexy atan cos sin k mem xy).1) := fun h => by
      have := a18.mp h
      omega
    omega

/-- Without a real start angle `calc_halfcirclexy` writes nothing. -/
theorem calc_halfcirclexy_none (atan cos sin : α → α) (k : Consts α)
    (mem : ℕ → geo α) (xy : geo α × geo α)
    (hs : start_angle atan k.PI xy.2 = none) :
    calc_halfcirclexy atan cos sin k mem xy = (0, mem) := by
  simp only [calc_halfcirclexy, hs]

end LoopFacts

/-! ## Bounds on the arc tangent -/

section ArctanFacts

/-- For a positive argument the arc tangent is positive and below the
argument. -/
theorem arctan_pos_lt (t : ℝ) (ht : 0 < t) : 0 < Real.arctan t ∧ Real.arctan t < t := by
  have h0 : 0 < Real.arctan t := by
    have := Real.arctan_strictMono ht
    rwa [Real.arctan_zero] at this
  refine ⟨h0, ?_⟩
  have := Real.lt_tan h0 (Real.arctan_lt_pi_div_two t)
  rwa [Real.tan_arctan] at this

end ArctanFacts

/-! ## The scenarios of the specification, evaluated -/

section Scenarios

/-- Scenario A: the two points written are `(-1,0)` and `(1,0)`. -/
theorem intersection_scenario_A_eq :
    intersection Real.sqrt 0 0 1 (-10) 0 10 0 = (⟨some (-1), some 0⟩, ⟨some 1, some 0⟩) := by
  norm_num [intersection, c_sqrt]

/-- Scenario A: the start angle taken from `xy[1] = (1,0)` is `0`. -/
theorem start_angle_scenario_A :
    start_angle Real.arctan (scenario_A ℝ).PI ⟨some 1, some 0⟩ = some 0 := by
  norm_num [start_angle, c_quot, c_atan, scenario_A]

/-- Scenario A: `calc_halfcirclexy` writes 19 entries. -/
theorem calc_halfcirclexy_scenario_A_count (mem : ℕ → geo ℝ) (p : geo ℝ) :
    (calc_halfcirclexy Real.arctan Real.cos Real.sin (scenario_A ℝ) mem
      (p, ⟨some 1, some 0⟩)).1 = 19 := by
  rw [calc_halfcirclexy_count Real.arctan Real.cos Real.sin (scenario_A ℝ) mem _ 0
    start_angle_scenario_A]
  simp [c_trunc]

/-- Scenario A, through the constants record: the start angle of `main`. -/
theorem start_angle_main_scenario_A :
    start_angle Real.arctan (scenario_A ℝ).PI
      (intersection Real.sqrt (scenario_A ℝ).OBSTACLE_X (scenario_A ℝ).OBSTACLE_Y
        (scenario_A ℝ).DISTANCEFROMOBSTACLE (scenario_A ℝ).START_X (scenario_A ℝ).START_Y
        (scenario_A ℝ).END_X (scenario_A ℝ).END_Y).2 = some 0 := by
  have h : intersection Real.sqrt (scenario_A ℝ).OBSTACLE_X (scenario_A ℝ).OBSTACLE_Y
      (scenario_A ℝ).DISTANCEFROMOBSTACLE (scenario_A ℝ).START_X (scenario_A ℝ).START_Y
      (scenario_A ℝ).END_X (scenario_A ℝ).END_Y =
      (⟨some (-1), some 0⟩, ⟨some 1, some 0⟩) := intersection_scenario_A_eq
  rw [h]
  exact start_angle_scenario_A

/-- Without an intersection (distinct route points, line farther than `r` from
the centre) the point `xy[1]` gives no real start angle. -/
theorem start_angle_none_of_outside (PI x y r a b c d : ℝ) (hne : (a, b) ≠ (c, d))
    (hdist : r ^ 2 * ((c - a) ^ 2 + (d - b) ^ 2) <
      ((d - b) * (x - a) - (c - a) * (y - b)) ^ 2) :
    start_angle Real.arctan PI (intersection Real.sqrt x y r a b c d).2 = none := by
  have hD : sqrt_arg x y r a b c d < 0 := by
    by_contra hcon
    exact absurd ((sqrt_arg_nonneg_iff x y r a b c d hne).mp (not_lt.mp hcon)) (not_le.mpr hdist)
  rw [intersection_of_sqrt_arg_neg x y r a b c d hD]
  split <;> rfl

end Scenarios

/-! ## The start angle and the entry point -/

section EntryFacts

/-- For a point with real coordinates and a non-zero `PI`, the start angle is
NaN only at the origin of the coordinates (`0 / 0`); everywhere else it is a
real number, also where `x` is zero. -/
theorem start_angle_eq_none_iff (PI px py : ℝ) (hPI : PI ≠ 0) :
    start_angle Real.arctan PI ⟨some px, some py⟩ = none ↔ px = 0 ∧ py = 0 := by
  simp only [start_angle, if_neg hPI, Option.map_eq_none', c_quot]
  by_cases hx : px = 0
  · rw [if_pos hx]
    rcases lt_trichotomy py 0 with h | h | h
    · simp [c_atan, not_lt.mpr h.le, h, hx, h.ne]
    · simp [c_atan, h, hx]
    · simp [c_atan, h, hx, h.ne']
  · simp [c_atan, hx]

end EntryFacts

/-! ## Claims about `intersection` -/

/-- C1: over the reals, for a centre `(x, y)`, a radius `r > 0` and two distinct
route points `(a, b)`, `(c, d)` whose line passes within distance `r` of the
centre (non-negative discriminant), both points written by `intersection` are
real, lie on the line through the route points and are at distance exactly `r`
from the centre, on the non-vertical and on the vertical branch alike. -/
theorem intersection_on_line_and_circle (x y r a b c d : ℝ) (hr : 0 < r)
    (hne : (a, b) ≠ (c, d))
    (hdist : ((d - b) * (x - a) - (c - a) * (y - b)) ^ 2 ≤
      r ^ 2 * ((c - a) ^ 2 + (d - b) ^ 2)) :
    ∃ p0x p0y p1x p1y : ℝ,
      intersection Real.sqrt x y r a b c d = (⟨some p0x, some p0y⟩, ⟨some p1x, some p1y⟩) ∧
      (p0x - a) * (d - b) = (p0y - b) * (c - a) ∧
      (p1x - a) * (d - b) = (p1y - b) * (c - a) ∧
      Real.sqrt ((p0x - x) ^ 2 + (p0y - y) ^ 2) = r ∧
      Real.sqrt ((p1x - x) ^ 2 + (p1y - y) ^ 2) = r := by
  obtain ⟨p0x, p0y, p1x, p1y, hxy, hl0, hl1, hc0, hc1⟩ :=
    intersection_of_sqrt_arg_nonneg x y r a b c d
      ((sqrt_arg_nonneg_iff x y r a b c d hne).mpr hdist)
  refine ⟨p0x, p0y, p1x, p1y, hxy, hl0, hl1, ?_, ?_⟩
  · rw [hc0, Real.sqrt_sq hr.le]
  · rw [hc1, Real.sqrt_sq hr.le]

/-- C1, scenario A: centre `(0,0)`, radius `1`, route `(-10,0)` to `(10,0)`: the
hypotheses hold, and the points written are `(-1,0)` and `(1,0)`. -/
theorem intersection_on_line_and_circle_scenario_A :
    intersection Real.sqrt 0 0 1 (-10) 0 10 0 = (⟨some (-1), some 0⟩, ⟨some 1, some 0⟩) ∧
    ∃ p0x p0y p1x p1y : ℝ,
      intersection Real.sqrt 0 0 1 (-10) 0 10 0 =
        (⟨some p0x, some p0y⟩, ⟨some p1x, some p1y⟩) ∧
      (p0x - (-10)) * (0 - 0) = (p0y - 0) * (10 - (-10)) ∧
      (p1x - (-10)) * (0 - 0) = (p1y - 0) * (10 - (-10)) ∧
      Real.sqrt ((p0x - 0) ^ 2 + (p0y - 0) ^ 2) = 1 ∧
      Real.sqrt ((p1x - 0) ^ 2 + (p1y - 0) ^ 2) = 1 :=
  ⟨intersection_scenario_A_eq,
   intersection_on_line_and_circle 0 0 1 (-10) 0 10 0 (by norm_num) (by norm_num) (by norm_num)⟩

/-- C2 as stated fails: centre `(100,100)`, radius `1`, route `(-10,0)` to
`(10,0)`.  The line stays farther than `r` from the centre, yet the caller does
not get `NoIntersection`: it gets a pair of points, all of whose coordinates
have no real value. -/
theorem intersection_no_NoIntersection :
    (1 : ℝ) ^ 2 * ((10 - (-10)) ^ 2 + (0 - 0) ^ 2) <
      ((0 - 0) * (100 - (-10)) - (10 - (-10)) * (100 - 0)) ^ 2 ∧
    intersectCircleLine Real.sqrt 100 100 1 (-10) 0 10 0 ≠ IntersectResult.NoIntersection ∧
    intersectCircleLine Real.sqrt 100 100 1 (-10) 0 10 0 =
      IntersectResult.Points ⟨none, none⟩ ⟨none, none⟩ := by
  refine ⟨by norm_num, by simp [intersectCircleLine], ?_⟩
  have h := intersection_of_sqrt_arg_neg 100 100 1 (-10) 0 10 0
    (by norm_num [sqrt_arg])
  have hne : ¬ ((10 : ℝ) = -10) := by norm_num
  simp only [ne_eq, hne, not_false_eq_true, if_true] at h
  simp only [intersectCircleLine, h]

/-- C2, amended: whenever the line through two distinct route points stays
farther than `r` from the centre (negative discriminant), `intersection` still
writes both entries of `xy`, and every coordinate computed from the square
root has no real value: all four coordinates on the non-vertical branch, the
two `y` coordinates (with `x = a`) on the vertical branch. -/
theorem intersection_outside_writes_nan (x y r a b c d : ℝ) (hne : (a, b) ≠ (c, d))
    (hdist : r ^ 2 * ((c - a) ^ 2 + (d - b) ^ 2) <
      ((d - b) * (x - a) - (c - a) * (y - b)) ^ 2) :
    intersectCircleLine Real.sqrt x y r a b c d =
      if c ≠ a then IntersectResult.Points ⟨none, none⟩ ⟨none, none⟩
      else IntersectResult.Points ⟨some a, none⟩ ⟨some a, none⟩ := by
  have hD : sqrt_arg x y r a b c d < 0 := by
    by_contra hcon
    exact absurd ((sqrt_arg_nonneg_iff x y r a b c d hne).mp (not_lt.mp hcon)) (not_le.mpr hdist)
  have h := intersection_of_sqrt_arg_neg x y r a b c d hD
  by_cases hca : c = a
  · simp only [ne_eq, hca, not_true_eq_false, if_false] at h ⊢
    simp only [intersectCircleLine, hca, h]
  · simp only [ne_eq, hca, not_false_eq_true, if_true] at h ⊢
    simp only [intersectCircleLine, h]

/-- C2, amended, at the input of scenario B. -/
theorem intersection_outside_writes_nan_scenario_B :
    intersectCircleLine Real.sqrt 100 100 1 (-10) 0 10 0 =
      if (10 : ℝ) ≠ -10 then IntersectResult.Points ⟨none, none⟩ ⟨none, none⟩
      else IntersectResult.Points ⟨some (-10), none⟩ ⟨some (-10), none⟩ :=
  intersection_outside_writes_nan 100 100 1 (-10) 0 10 0 (by norm_num) (by norm_num)

/-! ## Claims about `calc_halfcirclexy` -/

/-- C10: over the reals, for every obstacle centre, every buffer radius
`r >= 0` and every entry point, each point produced by `calc_halfcirclexy` is
`centre + r * (cos(theta - 90 deg), -sin(theta - 90 deg))` for a whole-degree
angle `theta`, and so lies at distance exactly `r` from the centre. -/
theorem calc_halfcirclexy_on_circle (k : Consts ℝ) (mem : ℕ → geo ℝ) (xy : geo ℝ × geo ℝ)
    (hr : 0 ≤ k.DISTANCEFROMOBSTACLE) (p : geo ℝ)
    (hp : p ∈ arc_points Real.arctan Real.cos Real.sin k mem xy) :
    ∃ (theta : ℤ) (px py : ℝ),
      p = arc_point Real.cos Real.sin k theta ∧
      p = ⟨some px, some py⟩ ∧
      Real.sqrt ((px - k.OBSTACLE_X) ^ 2 + (py - k.OBSTACLE_Y) ^ 2) = k.DISTANCEFROMOBSTACLE := by
  simp only [arc_points, List.mem_map, List.mem_range] at hp
  obtain ⟨j, hj, rfl⟩ := hp
  cases hs : start_angle Real.arctan k.PI xy.2 with
  | none =>
    rw [calc_halfcirclexy_none Real.arctan Real.cos Real.sin k mem xy hs] at hj
    simp at hj
  | some s =>
    obtain ⟨_, h2, _⟩ := calc_halfcirclexy_spec Real.arctan Real.cos Real.sin k mem xy s hs
    refine ⟨c_trunc s + 10 * (j : ℤ),
      k.OBSTACLE_X + k.DISTANCEFROMOBSTACLE *
        Real.cos (k.PI / 180 * ((c_trunc s + 10 * (j : ℤ) - 90 : ℤ) : ℝ)),
      k.OBSTACLE_Y + k.DISTANCEFROMOBSTACLE *
        -Real.sin (k.PI / 180 * ((c_trunc s + 10 * (j : ℤ) - 90 : ℤ) : ℝ)),
      h2 j hj, h2 j hj, ?_⟩
    have e : ∀ t : ℝ, (k.OBSTACLE_X + k.DISTANCEFROMOBSTACLE * Real.cos t - k.OBSTACLE_X) ^ 2 +
        (k.OBSTACLE_Y + k.DISTANCEFROMOBSTACLE * -Real.sin t - k.OBSTACLE_Y) ^ 2 =
        k.DISTANCEFROMOBSTACLE ^ 2 := by
      intro t
      have := Real.cos_sq_add_sin_sq t
      linear_combination k.DISTANCEFROMOBSTACLE ^ 2 * this
    rw [e, Real.sqrt_sq hr]

/-- C10 at scenario A: the radius `1` is non-negative, the sample for angle `0`
is among the points produced, and the theorem applies to it. -/
theorem calc_halfcirclexy_on_circle_scenario_A :
    0 ≤ (scenario_A ℝ).DISTANCEFROMOBSTACLE ∧
    arc_point Real.cos Real.sin (scenario_A ℝ) 0 ∈
      arc_points Real.arctan Real.cos Real.sin (scenario_A ℝ) (fun _ => ⟨none, none⟩)
        (⟨some (-1), some 0⟩, ⟨some 1, some 0⟩) ∧
    ∃ (theta : ℤ) (px py : ℝ),
      arc_point Real.cos Real.sin (scenario_A ℝ) 0 =
        arc_point Real.cos Real.sin (scenario_A ℝ) theta ∧
      arc_point Real.cos Real.sin (scenario_A ℝ) 0 = ⟨some px, some py⟩ ∧
      Real.sqrt ((px - (scenario_A ℝ).OBSTACLE_X) ^ 2 + (py - (scenario_A ℝ).OBSTACLE_Y) ^ 2) =
        (scenario_A ℝ).DISTANCEFROMOBSTACLE :=
  have hr : 0 ≤ (scenario_A ℝ).DISTANCEFROMOBSTACLE := by norm_num [scenario_A]
  have hmem : arc_point Real.cos Real.sin (scenario_A ℝ) 0 ∈
      arc_points Real.arctan Real.cos Real.sin (scenario_A ℝ) (fun _ => ⟨none, none⟩)
        (⟨some (-1), some 0⟩, ⟨some 1, some 0⟩) := by
    have hcount := calc_halfcirclexy_scenario_A_count (fun _ => ⟨none, none⟩) ⟨some (-1), some 0⟩
    obtain ⟨_, h2, _⟩ := calc_halfcirclexy_spec Real.arctan Real.cos Real.sin (scenario_A ℝ)
      (fun _ => ⟨none, none⟩) (⟨some (-1), some 0⟩, ⟨some 1, some 0⟩) 0 start_angle_scenario_A
    simp only [arc_points, List.mem_map, List.mem_range]
    refine ⟨0, by rw [hcount]; decide, ?_⟩
    rw [h2 0 (by rw [hcount]; decide)]
    simp [c_trunc]
  ⟨hr, hmem, calc_halfcirclexy_on_circle (scenario_A ℝ) (fun _ => ⟨none, none⟩)
    (⟨some (-1), some 0⟩, ⟨some 1, some 0⟩) hr _ hmem⟩

/-! ## Claims about the mission items -/

/-- The positions of the mission items `main` assembles, whatever the
geometry: the start, the entries `avoidxy[0..17]` after `calc_halfcirclexy`,
then `xy[0]`, then the end. -/
theorem main_mission_items_positions (k : Consts ℝ) (avoidxy0 : ℕ → geo ℝ) :
    (main_mission_items Real.sqrt Real.arctan Real.cos Real.sin k avoidxy0).map
        MissionItem.position =
      [⟨some k.START_X, some k.START_Y⟩] ++
      (List.range 18).map (calc_halfcirclexy Real.arctan Real.cos Real.sin k avoidxy0
        (intersection Real.sqrt k.OBSTACLE_X k.OBSTACLE_Y k.DISTANCEFROMOBSTACLE
          k.START_X k.START_Y k.END_X k.END_Y)).2 ++
      [(intersection Real.sqrt k.OBSTACLE_X k.OBSTACLE_Y k.DISTANCEFROMOBSTACLE
          k.START_X k.START_Y k.END_X k.END_Y).1] ++
      [⟨some k.END_X, some k.END_Y⟩] := by
  simp only [main_mission_items, make_mission_item, MissionItem.position, List.map_append,
    List.map_map, List.map_cons, List.map_nil, Function.comp_def]

/-- C4 as stated fails: in scenario B (centre `(100,100)`, radius `1`, route
`(-10,0)` to `(10,0)`) the line stays outside the buffer, yet the plan has 21
waypoints and its positions are not just the start and the end. -/
theorem plan_not_two_waypoints :
    (1 : ℝ) ^ 2 * ((10 - (-10)) ^ 2 + (0 - 0) ^ 2) <
      ((0 - 0) * (100 - (-10)) - (10 - (-10)) * (100 - 0)) ^ 2 ∧
    (main_mission_items Real.sqrt Real.arctan Real.cos Real.sin (scenario_B ℝ)
      (fun _ => ⟨some 0, some 0⟩)).length = 21 ∧
    (main_mission_items Real.sqrt Real.arctan Real.cos Real.sin (scenario_B ℝ)
      (fun _ => ⟨some 0, some 0⟩)).map MissionItem.position ≠
      [⟨some (-10), some 0⟩, ⟨some 10, some 0⟩] := by
  have h21 : ((main_mission_items Real.sqrt Real.arctan Real.cos Real.sin (scenario_B ℝ)
      (fun _ => ⟨some 0, some 0⟩)).map MissionItem.position).length = 21 := by
    rw [main_mission_items_positions]
    simp
  refine ⟨by norm_num, by rwa [List.length_map] at h21, ?_⟩
  intro heq
  rw [heq] at h21
  simp at h21

/-- C4, amended: when no intersection is found (distinct route points, line
farther than the radius from the centre) the plan is not cut down to the two
end points.  It has 21 waypoints: the route start, the 18 entries
`avoidxy[0..17]` exactly as they were before `calc_halfcirclexy` ran (nothing
is written to them), the point `xy[0]` whose coordinates computed from the
square root have no real value, and the route end. -/
theorem plan_without_intersection (k : Consts ℝ) (avoidxy0 : ℕ → geo ℝ)
    (hne : (k.START_X, k.START_Y) ≠ (k.END_X, k.END_Y))
    (hdist : k.DISTANCEFROMOBSTACLE ^ 2 *
        ((k.END_X - k.START_X) ^ 2 + (k.END_Y - k.START_Y) ^ 2) <
      ((k.END_Y - k.START_Y) * (k.OBSTACLE_X - k.START_X) -
        (k.END_X - k.START_X) * (k.OBSTACLE_Y - k.START_Y)) ^ 2) :
    (main_mission_items Real.sqrt Real.arctan Real.cos Real.sin k avoidxy0).map
        MissionItem.position =
      [⟨some k.START_X, some k.START_Y⟩] ++ (List.range 18).map avoidxy0 ++
      [if k.END_X ≠ k.START_X then ⟨none, none⟩ else ⟨some k.START_X, none⟩] ++
      [⟨some k.END_X, some k.END_Y⟩] ∧
    (main_mission_items Real.sqrt Real.arctan Real.cos Real.sin k avoidxy0).length = 21 := by
  have hpos := main_mission_items_positions k avoidxy0
  have hnone := start_angle_none_of_outside k.PI k.OBSTACLE_X k.OBSTACLE_Y
    k.DISTANCEFROMOBSTACLE k.START_X k.START_Y k.END_X k.END_Y hne hdist
  have hD : sqrt_arg k.OBSTACLE_X k.OBSTACLE_Y k.DISTANCEFROMOBSTACLE
      k.START_X k.START_Y k.END_X k.END_Y < 0 := by
    by_contra hcon
    exact absurd ((sqrt_arg_nonneg_iff _ _ _ _ _ _ _ hne).mp (not_lt.mp hcon)) (not_le.mpr hdist)
  have hxy0 : (intersection Real.sqrt k.OBSTACLE_X k.OBSTACLE_Y k.DISTANCEFROMOBSTACLE
      k.START_X k.START_Y k.END_X k.END_Y).1 =
      if k.END_X ≠ k.START_X then ⟨none, none⟩ else ⟨some k.START_X, none⟩ := by
    rw [intersection_of_sqrt_arg_neg _ _ _ _ _ _ _ hD]
    split <;> rfl
  rw [calc_halfcirclexy_none Real.arctan Real.cos Real.sin k avoidxy0 _ hnone, hxy0] at hpos
  refine ⟨hpos, ?_⟩
  have hlen := congrArg List.length hpos
  rw [List.length_map] at hlen
  rw [hlen]
  simp

/-- C4, amended, at scenario B. -/
theorem plan_without_intersection_scenario_B :
    (main_mission_items Real.sqrt Real.arctan Real.cos Real.sin (scenario_B ℝ)
        (fun _ => ⟨some 0, some 0⟩)).map MissionItem.position =
      [⟨some (scenario_B ℝ).START_X, some (scenario_B ℝ).START_Y⟩] ++
      (List.range 18).map (fun _ => (⟨some 0, some 0⟩ : geo ℝ)) ++
      [if (scenario_B ℝ).END_X ≠ (scenario_B ℝ).START_X then ⟨none, none⟩
       else ⟨some (scenario_B ℝ).START_X, none⟩] ++
      [⟨some (scenario_B ℝ).END_X, some (scenario_B ℝ).END_Y⟩] ∧
    (main_mission_items Real.sqrt Real.arctan Real.cos Real.sin (scenario_B ℝ)
      (fun _ => ⟨some 0, some 0⟩)).length = 21 :=
  plan_without_intersection (scenario_B ℝ) (fun _ => ⟨some 0, some 0⟩)
    (by norm_num [scenario_B]) (by norm_num [scenario_B])

/-! ## The flight sequence -/

section FlightFacts

/-- Once raised the flag stays raised. -/
theorem deliver_true (events : List MissionProgress) : deliver true events = true := by
  induction events with
  | nil => rfl
  | cons e rest ih =>
    simp only [deliver, List.foldl_cons, on_mission_progress] at ih ⊢
    split <;> exact ih

/-- Events below the threshold leave the flag down. -/
theorem deliver_false_of_below (events : List MissionProgress)
    (h : ∀ m ∈ events, m.current < 2) : deliver false events = false := by
  induction events with
  | nil => rfl
  | cons e rest ih =>
    have he : ¬ (e.current ≥ 2) := not_le.mpr (h e (List.mem_cons_self _ _))
    have hrest := ih (fun m hm => h m (List.mem_cons_of_mem _ hm))
    simp only [deliver, List.foldl_cons, on_mission_progress, if_neg he] at hrest ⊢
    exact hrest

/-- Delivery of two lists in a row. -/
theorem deliver_append (flag : Bool) (l1 l2 : List MissionProgress) :
    deliver flag (l1 ++ l2) = deliver (deliver flag l1) l2 := by
  simp only [deliver, List.foldl_append]

/-- An event at or above the threshold raises the flag, whatever follows. -/
theorem deliver_of_reached (flag : Bool) (l1 : List MissionProgress) (e : MissionProgress)
    (l2 : List MissionProgress) (he : 2 ≤ e.current) :
    deliver flag (l1 ++ e :: l2) = true := by
  rw [deliver_append]
  have : deliver (deliver flag l1) (e :: l2) = deliver true l2 := by
    simp only [deliver, List.foldl_cons, on_mission_progress, ge_iff_le, if_pos he]
  rw [this, deliver_true]

/-- The wait for the flag ends exactly when the delivered events raise it. -/
theorem wait_want_to_pause_none_iff (flag : Bool) (groups : List (List MissionProgress)) :
    wait_want_to_pause flag groups = none ↔ deliver flag groups.flatten = false := by
  induction groups generalizing flag with
  | nil =>
    cases flag <;> simp [wait_want_to_pause, deliver]
  | cons g rest ih =>
    cases flag with
    | true =>
      simp only [wait_want_to_pause, if_true, deliver_true]
      simp
    | false =>
      simp only [wait_want_to_pause, List.flatten_cons, deliver_append]
      simpa using ih (deliver false g)

/-- A request that follows two different requests in a list has the second of
them before it. -/
theorem mem_pre_of_split {β : Type} (pre post rest : List β) (a b c : β)
    (h : pre ++ c :: post = a :: b :: rest) (ha : a ≠ c) (hb : b ≠ c) : b ∈ pre := by
  cases pre with
  | nil =>
    simp only [List.nil_append, List.cons.injEq] at h
    exact absurd h.1.symm ha
  | cons x pre1 =>
    cases pre1 with
    | nil =>
      simp only [List.cons_append, List.nil_append, List.cons.injEq] at h
      exact absurd h.2.1.symm hb
    | cons z pre2 =>
      simp only [List.cons_append, List.cons.injEq] at h
      rw [h.2.1]
      simp

/-- The run that never sees the system healthy. -/
theorem main_flight_unhealthy {P : Type} (plan : P) (p : Provider)
    (h0 : poll_exits false p.health_all_ok = false) :
    main_flight plan p = ⟨[], [], false, Outcome.waiting WaitPoint.health_all_ok⟩ := by
  simp only [main_flight, h0, if_true]

/-- The run whose upload is refused. -/
theorem main_flight_upload_failed {P : Type} (plan : P) (p : Provider)
    (h0 : poll_exits false p.health_all_ok = true)
    (h1 : p.upload_mission ≠ MissionResult.Success) :
    main_flight plan p =
      ⟨[Cmd.upload_mission plan], [Msg.mission_upload_failed p.upload_mission], false,
        Outcome.exited 1⟩ := by
  simp only [main_flight, h0, Bool.true_eq_false, if_false, h1, ne_eq, not_false_eq_true, if_true]

/-- The run whose arm request is refused. -/
theorem main_flight_arm_failed {P : Type} (plan : P) (p : Provider)
    (h0 : poll_exits false p.health_all_ok = true)
    (h1 : p.upload_mission = MissionResult.Success)
    (h2 : p.arm ≠ ActionResult.Success) :
    main_flight plan p =
      ⟨[Cmd.upload_mission plan, Cmd.arm], [Msg.mission_uploaded, Msg.arm_failed p.arm], false,
        Outcome.exited EXIT_FAILURE⟩ := by
  simp only [main_flight, h0, Bool.true_eq_false, if_false, h1, ne_eq, not_true_eq_false, h2,
    not_false_eq_true, if_true, List.cons_append, List.nil_append]

/-- The run whose start request is refused. -/
theorem main_flight_start_failed {P : Type} (plan : P) (p : Provider)
    (h0 : poll_exits false p.health_all_ok = true)
    (h1 : p.upload_mission = MissionResult.Success)
    (h2 : p.arm = ActionResult.Success)
    (h3 : p.start_mission ≠ MissionResult.Success) :
    main_flight plan p =
      ⟨[Cmd.upload_mission plan, Cmd.arm, Cmd.subscribe_mission_progress, Cmd.start_mission],
        [Msg.mission_uploaded, Msg.armed, Msg.mission_start_failed p.start_mission], false,
        Outcome.exited EXIT_FAILURE⟩ := by
  simp only [main_flight, h0, Bool.true_eq_false, if_false, h1, ne_eq, not_true_eq_false, h2, h3,
    not_false_eq_true, if_true, List.cons_append, List.nil_append]

/-- The run that never sees the flag raised. -/
theorem main_flight_no_pause_request {P : Type} (plan : P) (p : Provider)
    (h0 : poll_exits false p.health_all_ok = true)
    (h1 : p.upload_mission = MissionResult.Success)
    (h2 : p.arm = ActionResult.Success)
    (h3 : p.start_mission = MissionResult.Success)
    (h4 : wait_want_to_pause false p.mission_progress = none) :
    main_flight plan p =
      ⟨[Cmd.upload_mission plan, Cmd.arm, Cmd.subscribe_mission_progress, Cmd.start_mission],
        [Msg.mission_uploaded, Msg.armed], deliver false p.mission_progress.flatten,
        Outcome.waiting WaitPoint.want_to_pause⟩ := by
  simp only [main_flight, h0, Bool.true_eq_false, if_false, h1, ne_eq, not_true_eq_false, h2, h3,
    h4, List.cons_append, List.nil_append]

/-- The run that sees the flag raised: the pause and the resume request are
issued whatever their results, the return-to-launch request once the mission is
reported finished, and the run ends once the vehicle is reported disarmed. -/
theorem main_flight_pause_request {P : Type} (plan : P) (p : Provider)
    (later : List (List MissionProgress))
    (h0 : poll_exits false p.health_all_ok = true)
    (h1 : p.upload_mission = MissionResult.Success)
    (h2 : p.arm = ActionResult.Success)
    (h3 : p.start_mission = MissionResult.Success)
    (h4 : wait_want_to_pause false p.mission_progress = some later) :
    main_flight plan p =
      ⟨[Cmd.upload_mission plan, Cmd.arm, Cmd.subscribe_mission_progress, Cmd.start_mission,
          Cmd.pause_mission, Cmd.start_mission] ++
          (if poll_exits false p.is_mission_finished = true then [Cmd.return_to_launch] else []),
        [Msg.mission_uploaded, Msg.armed,
          if p.pause_mission ≠ MissionResult.Success then Msg.failed_to_pause p.pause_mission
          else Msg.mission_paused,
          if p.resume_mission ≠ MissionResult.Success then Msg.failed_to_resume p.resume_mission
          else Msg.resumed_mission] ++
          (if poll_exits false p.is_mission_finished = true then
            [if p.return_to_launch ≠ ActionResult.Success then
               Msg.failed_to_command_rtl p.return_to_launch
             else Msg.commanded_rtl] ++
            (if poll_exits true p.armed = true then [Msg.disarmed_exiting] else [])
           else []),
        deliver false p.mission_progress.flatten,
        if poll_exits false p.is_mission_finished = true then
          (if poll_exits true p.armed = true then Outcome.exited 0
           else Outcome.waiting WaitPoint.disarmed)
        else Outcome.waiting WaitPoint.is_mission_finished⟩ := by
  simp only [main_flight, h0, Bool.true_eq_false, if_false, h1, ne_eq, not_true_eq_false, h2, h3,
    h4, List.cons_append, List.nil_append]
  cases hf : poll_exits false p.is_mission_finished
  · simp
  · cases hd : poll_exits true p.armed
    · simp
    · simp

/-- The health loop and the completion loop are left exactly when the provider
answers `true` at some poll. -/
theorem poll_exits_false_iff (answers : List Bool) :
    poll_exits false answers = true ↔ true ∈ answers := by
  induction answers with
  | nil => simp [poll_exits]
  | cons b rest ih =>
    cases b
    · simpa [poll_exits] using ih
    · simp [poll_exits]

/-- The disarm loop is left exactly when the provider answers `false` (not
armed) at some poll. -/
theorem poll_exits_true_iff (answers : List Bool) :
    poll_exits true answers = true ↔ false ∈ answers := by
  induction answers with
  | nil => simp [poll_exits]
  | cons b rest ih =>
    cases b
    · simp [poll_exits]
    · simpa [poll_exits] using ih

/-- With the flag up the wait ends at once, all groups still to come. -/
theorem wait_want_to_pause_true (groups : List (List MissionProgress)) :
    wait_want_to_pause true groups = some groups := by
  cases groups <;> simp [wait_want_to_pause]

/-- A group holding an event at or above the threshold raises the flag. -/
theorem deliver_group_reached (flag : Bool) (g : List MissionProgress)
    (hg : ∃ m ∈ g, 2 ≤ m.current) : deliver flag g = true := by
  obtain ⟨m, hm, h2⟩ := hg
  obtain ⟨l1, l2, rfl⟩ := List.append_of_mem hm
  exact deliver_of_reached flag l1 m l2 h2

/-- The wait for the flag goes through every group whose events stay below
the threshold and ends right after the first group that holds an event at or
above it: the groups after that one are still to come. -/
theorem wait_want_to_pause_split (gpre : List (List MissionProgress))
    (g : List MissionProgress) (gpost : List (List MissionProgress))
    (hpre : ∀ m ∈ gpre.flatten, m.current < 2) (hg : ∃ m ∈ g, 2 ≤ m.current) :
    wait_want_to_pause false (gpre ++ g :: gpost) = some gpost := by
  induction gpre with
  | nil =>
    simp only [List.nil_append, wait_want_to_pause, Bool.false_eq_true, if_false,
      deliver_group_reached false g hg, wait_want_to_pause_true]
  | cons h rest ih =>
    have hh : deliver false h = false :=
      deliver_false_of_below h (fun m hm => hpre m (by simp [hm]))
    have hrest : ∀ m ∈ rest.flatten, m.current < 2 := fun m hm =>
      hpre m (by
        simp only [List.flatten_cons, List.mem_append]
        exact Or.inr hm)
    simp only [List.cons_append, wait_want_to_pause, Bool.false_eq_true, if_false, hh]
    exact ih hrest

/-- With every event below the threshold the wait never ends. -/
theorem wait_want_to_pause_below (groups : List (List MissionProgress))
    (h : ∀ m ∈ groups.flatten, m.current < 2) :
    wait_want_to_pause false groups = none :=
  (wait_want_to_pause_none_iff false groups).mpr (deliver_false_of_below _ h)

/-- With an event at or above the threshold the wait ends. -/
theorem wait_want_to_pause_reached (groups : List (List MissionProgress))
    (h : ∃ m ∈ groups.flatten, 2 ≤ m.current) :
    ∃ later, wait_want_to_pause false groups = some later := by
  have hd : deliver false groups.flatten = true := deliver_group_reached false _ h
  cases hw : wait_want_to_pause false groups with
  | none =>
    rw [(wait_want_to_pause_none_iff false groups).mp hw] at hd
    exact absurd hd (by decide)
  | some later => exact ⟨later, rfl⟩

end FlightFacts

/-! ## Claims about the flight sequence -/

/-- C6: in every run in which the upload is attempted and its result is not
`Success`, `main` ends with the failure status, the line it prints carries that
upload result, and the only request ever issued is the upload: no arm, start,
pause, resume or return-to-launch request. -/
theorem upload_failure_aborts_before_arm {P : Type} (plan : P) (p : Provider)
    (h0 : poll_exits false p.health_all_ok = true)
    (h1 : p.upload_mission ≠ MissionResult.Success) :
    (main_flight plan p).outcome = Outcome.exited 1 ∧
    (main_flight plan p).console = [Msg.mission_upload_failed p.upload_mission] ∧
    (main_flight plan p).commands = [Cmd.upload_mission plan] ∧
    Cmd.arm ∉ (main_flight plan p).commands ∧
    Cmd.start_mission ∉ (main_flight plan p).commands ∧
    Cmd.pause_mission ∉ (main_flight plan p).commands ∧
    Cmd.return_to_launch ∉ (main_flight plan p).commands := by
  rw [main_flight_upload_failed plan p h0 h1]
  simp

/-- C6 at a provider that refuses the upload with result number 3. -/
theorem upload_failure_aborts_before_arm_example :
    (main_flight () { scenario_D with upload_mission := MissionResult.Failure 3 }).outcome =
      Outcome.exited 1 ∧
    (main_flight () { scenario_D with upload_mission := MissionResult.Failure 3 }).console =
      [Msg.mission_upload_failed (MissionResult.Failure 3)] ∧
    (main_flight () { scenario_D with upload_mission := MissionResult.Failure 3 }).commands =
      [Cmd.upload_mission ()] ∧
    Cmd.arm ∉
      (main_flight () { scenario_D with upload_mission := MissionResult.Failure 3 }).commands ∧
    Cmd.start_mission ∉
      (main_flight () { scenario_D with upload_mission := MissionResult.Failure 3 }).commands ∧
    Cmd.pause_mission ∉
      (main_flight () { scenario_D with upload_mission := MissionResult.Failure 3 }).commands ∧
    Cmd.return_to_launch ∉
      (main_flight () { scenario_D with upload_mission := MissionResult.Failure 3 }).commands :=
  upload_failure_aborts_before_arm ()
    { scenario_D with upload_mission := MissionResult.Failure 3 } (by decide) (by decide)

/-- C7: in every run of `main`, a start request is issued only after an arm
request issued earlier in the same run, and only if the arm result was
`Success`; when the arm result is anything else no start request is issued at
all, and a run that got as far as the arm request ends with the failure
status. -/
theorem start_requires_successful_arm {P : Type} (plan : P) (p : Provider) :
    (∀ pre post : List (Cmd P),
      (main_flight plan p).commands = pre ++ Cmd.start_mission :: post →
        Cmd.arm ∈ pre ∧ p.arm = ActionResult.Success) ∧
    (p.arm ≠ ActionResult.Success →
      Cmd.start_mission ∉ (main_flight plan p).commands ∧
      (Cmd.arm ∈ (main_flight plan p).commands →
        (main_flight plan p).outcome = Outcome.exited EXIT_FAILURE)) := by
  cases h0 : poll_exits false p.health_all_ok with
  | false =>
    rw [main_flight_unhealthy plan p h0]
    simp
  | true =>
    by_cases h1 : p.upload_mission = MissionResult.Success
    · by_cases h2 : p.arm = ActionResult.Success
      · by_cases h3 : p.start_mission = MissionResult.Success
        · cases h4 : wait_want_to_pause false p.mission_progress with
          | none =>
            rw [main_flight_no_pause_request plan p h0 h1 h2 h3 h4]
            refine ⟨fun pre post h => ⟨?_, h2⟩, fun h => absurd h2 h⟩
            exact mem_pre_of_split pre post _ _ _ _ h.symm (by simp) (by simp)
          | some later =>
            rw [main_flight_pause_request plan p later h0 h1 h2 h3 h4]
            refine ⟨fun pre post h => ⟨?_, h2⟩, fun h => absurd h2 h⟩
            exact mem_pre_of_split pre post _ _ _ _ h.symm (by simp) (by simp)
        · rw [main_flight_start_failed plan p h0 h1 h2 h3]
          refine ⟨fun pre post h => ⟨?_, h2⟩, fun h => absurd h2 h⟩
          exact mem_pre_of_split pre post _ _ _ _ h.symm (by simp) (by simp)
      · rw [main_flight_arm_failed plan p h0 h1 h2]
        refine ⟨fun pre post h => ?_, fun _ => ⟨by simp, fun _ => rfl⟩⟩
        have hm : Cmd.start_mission ∈ pre ++ Cmd.start_mission :: post := by simp
        rw [← h] at hm
        simp at hm
    · rw [main_flight_upload_failed plan p h0 h1]
      refine ⟨fun pre post h => ?_, fun _ => ⟨by simp, fun h => by simp at h⟩⟩
      have hm : Cmd.start_mission ∈ pre ++ Cmd.start_mission :: post := by simp
      rw [← h] at hm
      simp at hm

/-- C8: in every run that got past the start request, whatever progress
events the provider delivers.  (1) If `e` is the first event whose `current`
is at least 2, the flag `want_to_pause` is down after the events before `e`
and up after `e` and after every further event.  (2) If no delivered event
reaches 2, the flag stays down, the run stays in the wait loop and issues no
pause request.  (3) If some group of events holds an event that reaches 2,
the wait loop is left right after the first such group (the later groups are
still to come), the flag is up at the end, and exactly one pause request is
issued, right after the start request, however many later events also reach
the threshold. -/
theorem pause_requested_once {P : Type} (plan : P) (p : Provider)
    (h0 : true ∈ p.health_all_ok)
    (h1 : p.upload_mission = MissionResult.Success)
    (h2 : p.arm = ActionResult.Success)
    (h3 : p.start_mission = MissionResult.Success) :
    (∀ (pre : List MissionProgress) (e : MissionProgress) (post : List MissionProgress),
      p.mission_progress.flatten = pre ++ e :: post →
      (∀ m ∈ pre, m.current < 2) → 2 ≤ e.current →
        deliver false pre = false ∧
        (∀ later rest : List MissionProgress, post = later ++ rest →
          deliver false (pre ++ e :: later) = true)) ∧
    ((∀ m ∈ p.mission_progress.flatten, m.current < 2) →
      (main_flight plan p).want_to_pause = false ∧
      (main_flight plan p).outcome = Outcome.waiting WaitPoint.want_to_pause ∧
      (main_flight plan p).commands =
        [Cmd.upload_mission plan, Cmd.arm, Cmd.subscribe_mission_progress, Cmd.start_mission] ∧
      List.countP Cmd.is_pause_mission (main_flight plan p).commands = 0) ∧
    (∀ (gpre : List (List MissionProgress)) (g : List MissionProgress)
        (gpost : List (List MissionProgress)),
      p.mission_progress = gpre ++ g :: gpost →
      (∀ m ∈ gpre.flatten, m.current < 2) → (∃ m ∈ g, 2 ≤ m.current) →
        wait_want_to_pause false p.mission_progress = some gpost ∧
        (main_flight plan p).want_to_pause = true ∧
        (main_flight plan p).commands =
          [Cmd.upload_mission plan, Cmd.arm, Cmd.subscribe_mission_progress, Cmd.start_mission,
            Cmd.pause_mission, Cmd.start_mission] ++
            (if true ∈ p.is_mission_finished then [Cmd.return_to_launch] else []) ∧
        List.countP Cmd.is_pause_mission (main_flight plan p).commands = 1) := by
  have h0' := (poll_exits_false_iff p.health_all_ok).mpr h0
  refine ⟨?_, ?_, ?_⟩
  · intro pre e post _ hpre he
    exact ⟨deliver_false_of_below pre hpre,
      fun later _ _ => deliver_of_reached false pre e later he⟩
  · intro hbelow
    rw [main_flight_no_pause_request plan p h0' h1 h2 h3
      (wait_want_to_pause_below p.mission_progress hbelow)]
    refine ⟨deliver_false_of_below _ hbelow, rfl, rfl, ?_⟩
    simp [List.countP_cons, Cmd.is_pause_mission]
  · intro gpre g gpost hsplit hpre hg
    have hw : wait_want_to_pause false p.mission_progress = some gpost := by
      rw [hsplit]
      exact wait_want_to_pause_split gpre g gpost hpre hg
    have hflag : deliver false p.mission_progress.flatten = true := by
      apply deliver_group_reached
      obtain ⟨m, hm, h2m⟩ := hg
      refine ⟨m, ?_, h2m⟩
      rw [hsplit]
      simp only [List.flatten_append, List.flatten_cons, List.mem_append]
      exact Or.inr (Or.inl hm)
    rw [main_flight_pause_request plan p gpost h0' h1 h2 h3 hw]
    refine ⟨hw, hflag, ?_, ?_⟩
    · by_cases hf : true ∈ p.is_mission_finished
      · simp [hf, (poll_exits_false_iff _).mpr hf]
      · have : poll_exits false p.is_mission_finished = false := by
          cases hp : poll_exits false p.is_mission_finished
          · rfl
          · exact absurd ((poll_exits_false_iff _).mp hp) hf
        simp [hf, this]
    · split <;> simp [List.countP_cons, Cmd.is_pause_mission]

/-- C8 at scenario D, the events `(1,10)`, `(2,10)`, `(3,10)` delivered one per
check of the flag: the flag is down after `(1,10)` and up from `(2,10)` on,
the wait loop is left after `(2,10)` with `(3,10)` still to come, and one
pause request is issued.  With the event `(1,10)` alone no pause request is
issued and the run stays in the wait loop. -/
theorem pause_requested_once_scenario_D :
    (deliver false [⟨1, 10⟩] = false ∧
      (∀ later rest : List MissionProgress, [(⟨3, 10⟩ : MissionProgress)] = later ++ rest →
        deliver false ([⟨1, 10⟩] ++ ⟨2, 10⟩ :: later) = true)) ∧
    (wait_want_to_pause false scenario_D.mission_progress = some [[⟨3, 10⟩]] ∧
      (main_flight () scenario_D).want_to_pause = true ∧
      (main_flight () scenario_D).commands =
        [Cmd.upload_mission (), Cmd.arm, Cmd.subscribe_mission_progress, Cmd.start_mission,
          Cmd.pause_mission, Cmd.start_mission] ++
          (if true ∈ scenario_D.is_mission_finished then [Cmd.return_to_launch] else []) ∧
      List.countP Cmd.is_pause_mission (main_flight () scenario_D).commands = 1) ∧
    ((main_flight () { scenario_D with mission_progress := [[⟨1, 10⟩]] }).want_to_pause = false ∧
      (main_flight () { scenario_D with mission_progress := [[⟨1, 10⟩]] }).outcome =
        Outcome.waiting WaitPoint.want_to_pause ∧
      (main_flight () { scenario_D with mission_progress := [[⟨1, 10⟩]] }).commands =
        [Cmd.upload_mission (), Cmd.arm, Cmd.subscribe_mission_progress, Cmd.start_mission] ∧
      List.countP Cmd.is_pause_mission
        (main_flight () { scenario_D with mission_progress := [[⟨1, 10⟩]] }).commands = 0) :=
  ⟨(pause_requested_once () scenario_D (by decide) (by decide) (by decide) (by decide)).1
      [⟨1, 10⟩] ⟨2, 10⟩ [⟨3, 10⟩] (by decide) (by decide) (by decide),
    (pause_requested_once () scenario_D (by decide) (by decide) (by decide) (by decide)).2.2
      [[⟨1, 10⟩]] [⟨2, 10⟩] [[⟨3, 10⟩]] (by decide) (by decide) (by decide),
    ⟨by decide, by decide, by decide, by decide⟩⟩

/-- C9: provided the system became healthy, the upload, the arm and the first
start request succeeded and some delivered progress event reached the
threshold, then for every combination of results of the pause, resume and
return-to-launch requests the run does not abort.  The pause and the resume
request are issued; the return-to-launch request is issued exactly when the
provider reports the mission finished at some poll; the run then ends with
status 0 exactly when the provider reports the vehicle not armed at some
poll, and is still waiting in the corresponding loop otherwise.  The three
results only change the lines printed. -/
theorem pause_resume_rtl_failures_not_fatal {P : Type} (plan : P) (p : Provider)
    (rp rr : MissionResult) (rl : ActionResult)
    (h0 : true ∈ p.health_all_ok)
    (h1 : p.upload_mission = MissionResult.Success)
    (h2 : p.arm = ActionResult.Success)
    (h3 : p.start_mission = MissionResult.Success)
    (h4 : ∃ m ∈ p.mission_progress.flatten, 2 ≤ m.current) :
    (main_flight plan
        { p with pause_mission := rp, resume_mission := rr, return_to_launch := rl }).commands =
      [Cmd.upload_mission plan, Cmd.arm, Cmd.subscribe_mission_progress, Cmd.start_mission,
        Cmd.pause_mission, Cmd.start_mission] ++
        (if true ∈ p.is_mission_finished then [Cmd.return_to_launch] else []) ∧
    (main_flight plan
        { p with pause_mission := rp, resume_mission := rr, return_to_launch := rl }).outcome =
      (if true ∈ p.is_mission_finished then
        (if false ∈ p.armed then Outcome.exited 0 else Outcome.waiting WaitPoint.disarmed)
       else Outcome.waiting WaitPoint.is_mission_finished) ∧
    (main_flight plan
        { p with pause_mission := rp, resume_mission := rr, return_to_launch := rl }).console =
      [Msg.mission_uploaded, Msg.armed,
        if rp ≠ MissionResult.Success then Msg.failed_to_pause rp else Msg.mission_paused,
        if rr ≠ MissionResult.Success then Msg.failed_to_resume rr else Msg.resumed_mission] ++
        (if true ∈ p.is_mission_finished then
          [if rl ≠ ActionResult.Success then Msg.failed_to_command_rtl rl
           else Msg.commanded_rtl] ++
          (if false ∈ p.armed then [Msg.disarmed_exiting] else [])
         else []) := by
  have h0' := (poll_exits_false_iff p.health_all_ok).mpr h0
  obtain ⟨later, h4'⟩ := wait_want_to_pause_reached p.mission_progress h4
  rw [main_flight_pause_request plan
    { p with pause_mission := rp, resume_mission := rr, return_to_launch := rl } later h0' h1 h2 h3
    h4']
  have hfin : (poll_exits false p.is_mission_finished = true) ↔ true ∈ p.is_mission_finished :=
    poll_exits_false_iff _
  have harm : (poll_exits true p.armed = true) ↔ false ∈ p.armed := poll_exits_true_iff _
  simp only [hfin, harm, and_self]

/-- C9 at scenario D with all three of pause, resume and return-to-launch
failing: the run still issues all seven requests and ends with status 0.  When
the provider never reports the mission finished no return-to-launch request
is issued and the run waits for completion; when it never reports the vehicle
disarmed the run waits for that. -/
theorem pause_resume_rtl_failures_not_fatal_scenario_D :
    (main_flight ()
        { scenario_D with pause_mission := MissionResult.Failure 4,
                          resume_mission := MissionResult.Failure 5,
                          return_to_launch := ActionResult.Failure 6 }).outcome =
      Outcome.exited 0 ∧
    (main_flight ()
        { scenario_D with pause_mission := MissionResult.Failure 4,
                          resume_mission := MissionResult.Failure 5,
                          return_to_launch := ActionResult.Failure 6 }).commands =
      [Cmd.upload_mission (), Cmd.arm, Cmd.subscribe_mission_progress, Cmd.start_mission,
        Cmd.pause_mission, Cmd.start_mission, Cmd.return_to_launch] ∧
    (main_flight ()
        { scenario_D with is_mission_finished := [false, false],
                          pause_mission := MissionResult.Failure 4,
                          resume_mission := MissionResult.Failure 5,
                          return_to_launch := ActionResult.Failure 6 }).commands =
      [Cmd.upload_mission (), Cmd.arm, Cmd.subscribe_mission_progress, Cmd.start_mission,
        Cmd.pause_mission, Cmd.start_mission] ∧
    (main_flight ()
        { scenario_D with is_mission_finished := [false, false],
                          pause_mission := MissionResult.Failure 4,
                          resume_mission := MissionResult.Failure 5,
                          return_to_launch := ActionResult.Failure 6 }).outcome =
      Outcome.waiting WaitPoint.is_mission_finished ∧
    (main_flight ()
        { scenario_D with armed := [true, true],
                          pause_mission := MissionResult.Failure 4,
                          resume_mission := MissionResult.Failure 5,
                          return_to_launch := ActionResult.Failure 6 }).outcome =
      Outcome.waiting WaitPoint.disarmed ∧
    (main_flight ()
        { scenario_D with pause_mission := MissionResult.Failure 4,
                          resume_mission := MissionResult.Failure 5,
                          return_to_launch := ActionResult.Failure 6 }).console =
      [Msg.mission_uploaded, Msg.armed, Msg.failed_to_pause (MissionResult.Failure 4),
        Msg.failed_to_resume (MissionResult.Failure 5),
        Msg.failed_to_command_rtl (ActionResult.Failure 6), Msg.disarmed_exiting] :=
  ⟨(pause_resume_rtl_failures_not_fatal () scenario_D (MissionResult.Failure 4)
      (MissionResult.Failure 5) (ActionResult.Failure 6)
      (by decide) (by decide) (by decide) (by decide) (by decide)).2.1,
    (pause_resume_rtl_failures_not_fatal () scenario_D (MissionResult.Failure 4)
      (MissionResult.Failure 5) (ActionResult.Failure 6)
      (by decide) (by decide) (by decide) (by decide) (by decide)).1,
    by decide, by decide, by decide,
    (pause_resume_rtl_failures_not_fatal () scenario_D (MissionResult.Failure 4)
      (MissionResult.Failure 5) (ActionResult.Failure 6)
      (by decide) (by decide) (by decide) (by decide) (by decide)).2.2⟩

/-! ## The bounds of the loop -/

section LoopBounds

/-- The number of entries the loop writes when entered as `calc_halfcirclexy`
enters it (`i = 0`, `angle` the truncated start angle): 19 when the truncated
start angle is not above the start angle, 18 otherwise. -/
theorem halfcircle_loop_count (cos sin : ℝ → ℝ) (k : Consts ℝ) (s : ℝ) (mem : ℕ → geo ℝ) :
    (halfcircle_loop cos sin k s 0 (c_trunc s) mem).1 =
      if ((c_trunc s : ℤ) : ℝ) ≤ s then 19 else 18 := by
  obtain ⟨_, h2, _, _, _⟩ := halfcircle_loop_spec cos sin k s _ 0 (c_trunc s) mem (le_refl _)
  obtain ⟨hb1, hb2⟩ := c_trunc_bounds s
  have a17 := h2 17
  have a18 := h2 18
  have a19 := h2 19
  rw [Nat.zero_add, floor_add_180] at a17 a18 a19
  push_cast at a17 a18 a19
  by_cases hle : ((c_trunc s : ℤ) : ℝ) ≤ s
  · have : c_trunc s ≤ Int.floor s := Int.le_floor.mpr hle
    rw [if_pos hle]
    have x18 := a18.mpr (by omega)
    have x19 : ¬ (19 < (halfcircle_loop cos sin k s 0 (c_trunc s) mem).1) := fun h => by
      have := a19.mp h
      omega
    omega
  · have : ¬ (c_trunc s ≤ Int.floor s) := fun h => hle (Int.le_floor.mp h)
    rw [if_neg hle]
    have x17 := a17.mpr (by omega)
    have x18 : ¬ (18 < (halfcircle_loop cos sin k s 0 (c_trunc s) mem).1) := fun h => by
      have := a18.mp h
      omega
    omega

/-- A start angle strictly between `-90` and `90` truncates to a whole angle
from `-90` to `90`. -/
theorem c_trunc_range (s : ℝ) (h1 : -90 < s) (h2 : s < 90) :
    -90 ≤ c_trunc s ∧ c_trunc s ≤ 90 := by
  obtain ⟨hb1, hb2⟩ := c_trunc_bounds s
  have hlo : (-90 : ℤ) ≤ Int.floor s := Int.le_floor.mpr (by push_cast; exact h1.le)
  have hhi : Int.floor s < 90 := Int.floor_lt.mpr (by push_cast; exact h2)
  constructor <;> omega

end LoopBounds

/-! ## Claims about the bounds of the loop -/

/-- C12: for every start angle `s` strictly between `-90` and `90` degrees, the
loop of `calc_halfcirclexy`, entered with `i = 0` and the angle `s` truncated
toward zero, writes the entries `0 .. n-1` with `n` equal to 18 or 19 and
leaves every other entry as it was: nothing at index 19 or beyond is touched,
so the 19-element array `avoidxy` is never overrun, and the 18 entries
`avoidxy[0..17]` that `main` reads are all filled.  Every value the `int`
loop variable takes, the one that ends the loop included, lies between `-90`
and `280`.  This loop is what `calc_halfcirclexy` runs when `s` is its start
angle. -/
theorem halfcircle_loop_within_avoidxy (cos sin : ℝ → ℝ) (k : Consts ℝ) (mem : ℕ → geo ℝ)
    (s : ℝ) (h1 : -90 < s) (h2 : s < 90) :
    ((halfcircle_loop cos sin k s 0 (c_trunc s) mem).1 = 18 ∨
      (halfcircle_loop cos sin k s 0 (c_trunc s) mem).1 = 19) ∧
    (∀ j : ℕ, j < (halfcircle_loop cos sin k s 0 (c_trunc s) mem).1 →
      (halfcircle_loop cos sin k s 0 (c_trunc s) mem).2 j =
        arc_point cos sin k (c_trunc s + 10 * (j : ℤ))) ∧
    (∀ j : ℕ, (halfcircle_loop cos sin k s 0 (c_trunc s) mem).1 ≤ j →
      (halfcircle_loop cos sin k s 0 (c_trunc s) mem).2 j = mem j) ∧
    (∀ j : ℕ, 19 ≤ j → (halfcircle_loop cos sin k s 0 (c_trunc s) mem).2 j = mem j) ∧
    (∀ j : ℕ, j < 18 →
      (halfcircle_loop cos sin k s 0 (c_trunc s) mem).2 j =
        arc_point cos sin k (c_trunc s + 10 * (j : ℤ))) ∧
    (∀ j : ℕ, j ≤ (halfcircle_loop cos sin k s 0 (c_trunc s) mem).1 →
      -90 ≤ c_trunc s + 10 * (j : ℤ) ∧ c_trunc s + 10 * (j : ℤ) ≤ 280) ∧
    (∀ (atan : ℝ → ℝ) (xy : geo ℝ × geo ℝ), start_angle atan k.PI xy.2 = some s →
      calc_halfcirclexy atan cos sin k mem xy = halfcircle_loop cos sin k s 0 (c_trunc s) mem) := by
  obtain ⟨_, _, h3, _, h5⟩ :=
    halfcircle_loop_spec cos sin k s _ 0 (c_trunc s) mem (le_refl _)
  have hcount := halfcircle_loop_count cos sin k s mem
  obtain ⟨hlo, hhi⟩ := c_trunc_range s h1 h2
  have hn : (halfcircle_loop cos sin k s 0 (c_trunc s) mem).1 = 18 ∨
      (halfcircle_loop cos sin k s 0 (c_trunc s) mem).1 = 19 := by
    rw [hcount]
    split
    · exact Or.inr rfl
    · exact Or.inl rfl
  have hwritten : ∀ j : ℕ, j < (halfcircle_loop cos sin k s 0 (c_trunc s) mem).1 →
      (halfcircle_loop cos sin k s 0 (c_trunc s) mem).2 j =
        arc_point cos sin k (c_trunc s + 10 * (j : ℤ)) := by
    intro j hj
    have := h3 j (by rwa [Nat.zero_add])
    rwa [Nat.zero_add] at this
  refine ⟨hn, hwritten, h5, ?_, ?_, ?_, ?_⟩
  · intro j hj
    exact h5 j (by omega)
  · intro j hj
    exact hwritten j (by omega)
  · intro j hj
    constructor <;> omega
  · intro atan xy hs
    simp only [calc_halfcirclexy, hs]

/-- C12 at the start angle `-1/2` degree (truncated to `0`), with the constants
of scenario A and an array that holds no real values beforehand. -/
theorem halfcircle_loop_within_avoidxy_example :
    (-90 : ℝ) < -1 / 2 ∧ (-1 / 2 : ℝ) < 90 ∧
    (((halfcircle_loop Real.cos Real.sin (scenario_A ℝ) (-1 / 2) 0 (c_trunc (-1 / 2 : ℝ))
        (fun _ => ⟨none, none⟩)).1 = 18 ∨
      (halfcircle_loop Real.cos Real.sin (scenario_A ℝ) (-1 / 2) 0 (c_trunc (-1 / 2 : ℝ))
        (fun _ => ⟨none, none⟩)).1 = 19) ∧
    (∀ j : ℕ, j < (halfcircle_loop Real.cos Real.sin (scenario_A ℝ) (-1 / 2) 0
        (c_trunc (-1 / 2 : ℝ)) (fun _ => ⟨none, none⟩)).1 →
      (halfcircle_loop Real.cos Real.sin (scenario_A ℝ) (-1 / 2) 0 (c_trunc (-1 / 2 : ℝ))
        (fun _ => ⟨none, none⟩)).2 j =
        arc_point Real.cos Real.sin (scenario_A ℝ) (c_trunc (-1 / 2 : ℝ) + 10 * (j : ℤ))) ∧
    (∀ j : ℕ, (halfcircle_loop Real.cos Real.sin (scenario_A ℝ) (-1 / 2) 0
        (c_trunc (-1 / 2 : ℝ)) (fun _ => ⟨none, none⟩)).1 ≤ j →
      (halfcircle_loop Real.cos Real.sin (scenario_A ℝ) (-1 / 2) 0 (c_trunc (-1 / 2 : ℝ))
        (fun _ => ⟨none, none⟩)).2 j = (fun _ => ⟨none, none⟩) j) ∧
    (∀ j : ℕ, 19 ≤ j →
      (halfcircle_loop Real.cos Real.sin (scenario_A ℝ) (-1 / 2) 0 (c_trunc (-1 / 2 : ℝ))
        (fun _ => ⟨none, none⟩)).2 j = (fun _ => ⟨none, none⟩) j) ∧
    (∀ j : ℕ, j < 18 →
      (halfcircle_loop Real.cos Real.sin (scenario_A ℝ) (-1 / 2) 0 (c_trunc (-1 / 2 : ℝ))
        (fun _ => ⟨none, none⟩)).2 j =
        arc_point Real.cos Real.sin (scenario_A ℝ) (c_trunc (-1 / 2 : ℝ) + 10 * (j : ℤ))) ∧
    (∀ j : ℕ, j ≤ (halfcircle_loop Real.cos Real.sin (scenario_A ℝ) (-1 / 2) 0
        (c_trunc (-1 / 2 : ℝ)) (fun _ => ⟨none, none⟩)).1 →
      -90 ≤ c_trunc (-1 / 2 : ℝ) + 10 * (j : ℤ) ∧ c_trunc (-1 / 2 : ℝ) + 10 * (j : ℤ) ≤ 280) ∧
    (∀ (atan : ℝ → ℝ) (xy : geo ℝ × geo ℝ),
      start_angle atan (scenario_A ℝ).PI xy.2 = some (-1 / 2) →
      calc_halfcirclexy atan Real.cos Real.sin (scenario_A ℝ) (fun _ => ⟨none, none⟩) xy =
        halfcircle_loop Real.cos Real.sin (scenario_A ℝ) (-1 / 2) 0 (c_trunc (-1 / 2 : ℝ))
          (fun _ => ⟨none, none⟩))) :=
  ⟨by norm_num, by norm_num,
    halfcircle_loop_within_avoidxy Real.cos Real.sin (scenario_A ℝ) (fun _ => ⟨none, none⟩)
      (-1 / 2) (by norm_num) (by norm_num)⟩

/-! ## Where the arc starts -/

section FirstSample

/-- For a whole-degree angle from `0` to `89`, a positive radius and a `PI`
between `0` and `6`, the sample lies strictly above the centre in `y`: its
`y` coordinate is `OBSTACLE_Y - r * sin(PI/180 * (theta - 90))` with the sine
taken strictly between `-pi` and `0`. -/
theorem arc_point_y_above (k : Consts ℝ) (theta : ℤ) (hr : 0 < k.DISTANCEFROMOBSTACLE)
    (hP0 : 0 < k.PI) (hP6 : k.PI < 6) (h0 : 0 ≤ theta) (h89 : theta ≤ 89) :
    ∃ px py : ℝ, arc_point Real.cos Real.sin k theta = ⟨some px, some py⟩ ∧
      k.OBSTACLE_Y < py := by
  refine ⟨_, _, rfl, ?_⟩
  have hc1 : ((theta - 90 : ℤ) : ℝ) ≤ -1 := by
    have : theta - 90 ≤ -1 := by omega
    exact_mod_cast this
  have hc2 : (-90 : ℝ) ≤ ((theta - 90 : ℤ) : ℝ) := by
    have : (-90 : ℤ) ≤ theta - 90 := by omega
    exact_mod_cast this
  have hpos : 0 < k.PI / 180 := by positivity
  have hneg : k.PI / 180 * ((theta - 90 : ℤ) : ℝ) < 0 := by nlinarith
  have hlow : -Real.pi < k.PI / 180 * ((theta - 90 : ℤ) : ℝ) := by
    have hpi := Real.pi_gt_three
    have : k.PI / 180 * (-90) ≤ k.PI / 180 * ((theta - 90 : ℤ) : ℝ) :=
      mul_le_mul_of_nonneg_left hc2 hpos.le
    linarith
  have hsin := Real.sin_neg_of_neg_of_neg_pi_lt hneg hlow
  nlinarith

/-- With the source's constants, the point of the buffer circle due `+x` of the
centre, `(OBSTACLE_X + DISTANCEFROMOBSTACLE, OBSTACLE_Y)`, has a start angle
strictly between `0` and `11` degrees. -/
theorem start_angle_source_entry :
    ∃ s : ℝ, start_angle Real.arctan (source_consts ℝ).PI
        ⟨some 47.397753, some 8.543696⟩ = some s ∧ 0 < s ∧ s < 11 := by
  obtain ⟨h0, h1⟩ := arctan_pos_lt (8.543696 / 47.397753) (by norm_num)
  refine ⟨Real.arctan (8.543696 / 47.397753) * 180 / 3.14159265358979323846, ?_, ?_, ?_⟩
  · norm_num [start_angle, c_quot, c_atan, source_consts]
  · positivity
  · rw [div_lt_iff₀ (by norm_num)]
    have : (8.543696 / 47.397753 : ℝ) < 0.181 := by norm_num
    linarith

/-- The first entry written for a start angle `s` from `0` up to (not
including) `90` degrees is the sample for the whole angle `⌊s⌋`, which lies
strictly above the centre in `y`. -/
theorem first_sample_y_above (k : Consts ℝ) (mem : ℕ → geo ℝ) (xy : geo ℝ × geo ℝ) (s : ℝ)
    (hs : start_angle Real.arctan k.PI xy.2 = some s) (hs0 : 0 ≤ s) (hs90 : s < 90)
    (hr : 0 < k.DISTANCEFROMOBSTACLE) (hP0 : 0 < k.PI) (hP6 : k.PI < 6) :
    ∃ px py : ℝ,
      (calc_halfcirclexy Real.arctan Real.cos Real.sin k mem xy).2 0 = ⟨some px, some py⟩ ∧
      k.OBSTACLE_Y < py := by
  obtain ⟨_, h2, _⟩ := calc_halfcirclexy_spec Real.arctan Real.cos Real.sin k mem xy s hs
  have hcount := calc_halfcirclexy_count Real.arctan Real.cos Real.sin k mem xy s hs
  have hpos : 0 < (calc_halfcirclexy Real.arctan Real.cos Real.sin k mem xy).1 := by
    rw [hcount]
    split <;> decide
  have hfirst := h2 0 hpos
  have ht : c_trunc s = Int.floor s := by simp only [c_trunc, if_pos hs0]
  have hf0 : 0 ≤ Int.floor s := Int.floor_nonneg.mpr hs0
  have hf89 : Int.floor s < 90 := Int.floor_lt.mpr (by push_cast; exact hs90)
  rw [ht] at hfirst
  simp only [Nat.cast_zero, mul_zero, add_zero] at hfirst
  rw [hfirst]
  exact arc_point_y_above k (Int.floor s) hr hP0 hP6 hf0 (by omega)

end FirstSample

/-! ## Claims about where the arc starts -/

/-- C11 fails on the code.  Centre `(0,0)`, radius `1`, entry point `(1,0)` on
the buffer circle: the first sample written by `calc_halfcirclexy` has a
positive `y` coordinate, so it is not the entry point and lies on no point of
the ray from the centre through the entry point (where `y = 0`).  With the
constants of the source file and the entry point
`(OBSTACLE_X + DISTANCEFROMOBSTACLE, OBSTACLE_Y)` on the buffer circle, the
first sample lies strictly above `OBSTACLE_Y` and is not the entry point
either. -/
theorem first_sample_not_at_entry_point :
    ((1 : ℝ) - 0) ^ 2 + (0 - 0) ^ 2 = 1 ^ 2 ∧
    (∃ px py : ℝ,
      (calc_halfcirclexy Real.arctan Real.cos Real.sin (scenario_A ℝ) (fun _ => ⟨none, none⟩)
        (⟨some (-1), some 0⟩, ⟨some 1, some 0⟩)).2 0 = ⟨some px, some py⟩ ∧ 0 < py) ∧
    (calc_halfcirclexy Real.arctan Real.cos Real.sin (scenario_A ℝ) (fun _ => ⟨none, none⟩)
      (⟨some (-1), some 0⟩, ⟨some 1, some 0⟩)).2 0 ≠ ⟨some 1, some 0⟩ ∧
    (∀ t : ℝ,
      (calc_halfcirclexy Real.arctan Real.cos Real.sin (scenario_A ℝ) (fun _ => ⟨none, none⟩)
        (⟨some (-1), some 0⟩, ⟨some 1, some 0⟩)).2 0 ≠
        ⟨some (0 + t * (1 - 0)), some (0 + t * (0 - 0))⟩) ∧
    ((47.397753 : ℝ) - 47.397553) ^ 2 + (8.543696 - 8.543696) ^ 2 = 0.0002 ^ 2 ∧
    (∃ px py : ℝ,
      (calc_halfcirclexy Real.arctan Real.cos Real.sin (source_consts ℝ) (fun _ => ⟨none, none⟩)
        (⟨none, none⟩, ⟨some 47.397753, some 8.543696⟩)).2 0 = ⟨some px, some py⟩ ∧
      8.543696 < py) ∧
    (calc_halfcirclexy Real.arctan Real.cos Real.sin (source_consts ℝ) (fun _ => ⟨none, none⟩)
      (⟨none, none⟩, ⟨some 47.397753, some 8.543696⟩)).2 0 ≠
      ⟨some 47.397753, some 8.543696⟩ := by
  obtain ⟨ax, ay, hA, hAy⟩ := first_sample_y_above (scenario_A ℝ) (fun _ => ⟨none, none⟩)
    (⟨some (-1), some 0⟩, ⟨some 1, some 0⟩) 0 start_angle_scenario_A (le_refl _) (by norm_num)
    (by norm_num [scenario_A]) (by norm_num [scenario_A]) (by norm_num [scenario_A])
  have hAy0 : (0 : ℝ) < ay := by simpa [scenario_A] using hAy
  obtain ⟨s, hs, hs0, hs11⟩ := start_angle_source_entry
  obtain ⟨bx, bY, hB, hBy⟩ := first_sample_y_above (source_consts ℝ) (fun _ => ⟨none, none⟩)
    (⟨none, none⟩, ⟨some 47.397753, some 8.543696⟩) s hs hs0.le (by linarith)
    (by norm_num [source_consts]) (by norm_num [source_consts]) (by norm_num [source_consts])
  have hBy0 : (8.543696 : ℝ) < bY := by simpa [source_consts] using hBy
  refine ⟨by norm_num, ⟨ax, ay, hA, hAy0⟩, ?_, ?_, by norm_num, ⟨bx, bY, hB, hBy0⟩, ?_⟩
  · rw [hA]
    intro h
    simp only [geo.mk.injEq, Option.some.injEq] at h
    linarith [h.2]
  · intro t
    rw [hA]
    intro h
    simp only [geo.mk.injEq, Option.some.injEq] at h
    have := h.2
    simp at this
    linarith
  · rw [hB]
    intro h
    simp only [geo.mk.injEq, Option.some.injEq] at h
    linarith [h.2]

end AvoidObstacles
